import Mathlib

/-!
# Tag directory handlers of `handlers/tags.go`

A shallow embedding of the tag handlers: the directory (`tagStorer`), the two
single-slot semaphores, the storage calls and the handlers `tags add`,
`tags get`, `tags clean`, `tags list`, the root command `tags`, `tags remove`,
`tags pingme`, `tags shutup` and `tags modremove`, the hourly `doClean` and the
confirmation wait of `tags add` as a step function over its interleavings.
The handler `tags add` itself takes the value it receives from that wait as an
input (`Env.received`).

Conventions of the embedding.

* A Go `map[string]V` is an association list `GoMap V`.  The order of the list
  is the order in which one `range` loop of the run visits the entries; Go
  leaves that order unspecified, so statements quantify over all lists.
* Go `len(s)` of a string is its length in bytes: `String.utf8ByteSize`.
* A handler is a function from the world before the call to its result and the
  world after it.  The world holds the stored directory, the two semaphores and
  a trace of the calls made to locks, storage and transport.
* `defer`red calls are applied after the body, last registered first.
* A nil pointer dereference is the result `Result.panic`.
-/

namespace Tags

/-! ## Go maps -/

/-- A Go `map[string]V`; the list order is the iteration order of the run. -/
abbrev GoMap (V : Type) := List (String × V)

namespace GoMap

variable {V : Type}

/-- The Go expression `v, ok := m[k]`. -/
def get? : GoMap V → String → Option V
  | [], _ => none
  | (k', v) :: m, k => if k' = k then some v else get? m k

/-- The Go statement `m[k] = v`. -/
def set : GoMap V → String → V → GoMap V
  | [], k, v => [(k, v)]
  | (k', v') :: m, k, v => if k' = k then (k, v) :: m else (k', v') :: set m k v

/-- The Go statement `delete(m, k)`. -/
def delete (m : GoMap V) (k : String) : GoMap V :=
  m.filter (fun e => decide (e.1 ≠ k))

/-- The Go expression `len(m)`. -/
def len (m : GoMap V) : Nat := m.length

/-- The keys of the map, in iteration order. -/
def keys (m : GoMap V) : List String := m.map Prod.fst

end GoMap

/-! ## Constants (tags.go lines 20-41) -/

def emojiConfirm : String := "✅"
def emojiClean : String := "✨"
def emojiDeny : String := "❌"
def tagLimit : Nat := 64
def platLimit : Nat := 20
def userLimit : Nat := 20
def addTimeout : Nat := 7
def cleanChannelID : String := "213662770724339712"
def cleanGuildID : String := "157263595128881153"

/-! ## Data model (tags.go lines 68-85) -/

/-- The Go struct `tag`. -/
structure tag where
  UID : String
  Username : String
  Tag : String
  Platform : String
  PingMe : Bool
  deriving DecidableEq, Repr

/-- The part of `discordgo.Role` the handlers read: its identifier. -/
structure Role where
  ID : String
  deriving DecidableEq, Repr

/-- The Go struct `platform`; `Role` is a pointer, `none` is nil. -/
structure platform where
  Name : String
  Role : Option Role
  Users : GoMap tag
  deriving DecidableEq, Repr

/-- The Go struct `tagStorer`, the unit of persistence. -/
structure tagStorer where
  Platforms : GoMap platform
  deriving DecidableEq, Repr

/-! ## Errors, replies and results -/

/-- The error values of tags.go lines 43-61, the anonymous error of line 209 and
errors handed up from storage or transport. -/
inductive Err where
  | provideTag
  | ErrPlatTooLong
  | ErrTagTooLong
  | ErrNoTags
  | ErrNoUserTags
  | ErrNoPlatform
  | ErrNoUser
  | ErrUserNotFound
  | ErrAddSpam
  | ErrCleanSpam
  | collaborator (text : String)
  deriving DecidableEq, Repr

/-- One line of the table of `tags list` (lines 533-546): the line of an entry
whose member lookup failed, or the ping flag, user name and tag of an entry.
The rendering cuts the user name to `userLimit` bytes. -/
inductive Row where
  /-- "false | [INVALID] | !tags clean" (lines 536-537) -/
  | invalid
  /-- "PingMe | Username | Tag" (lines 543-544) -/
  | entry (pingMe : Bool) (username tagText : String)
  deriving DecidableEq, Repr

/-- The messages a handler puts into its `CommandSend`, one constructor per
message text of the source; the arguments are the values spliced into the text. -/
inductive Reply where
  /-- "Please don't add anything while I'm waiting!" (line 222) -/
  | pleaseDontAdd
  /-- "Aborting platform creation." (line 301) -/
  | abortingPlatformCreation
  /-- "Success! Added tag T for P" (line 332) -/
  | successAdded (argTag plat : String)
  /-- "Thanks for waiting, we're all clean now!" (line 428) -/
  | allClean
  /-- "Your tag is T for platform P" (line 463) -/
  | yourTagIs (utgTag utgPlatform : String)
  /-- "You will no longer receive pings for tags" (line 687) -/
  | noLongerPings
  /-- "You now can('t) be pinged for P" (lines 738-742) -/
  | pingStatus (pingMe : Bool) (plat : String)
  /-- "Removed your tag from P" (line 788) -/
  | removedYourTag (plat : String)
  /-- "Removing empty platform: P" (line 796) -/
  | removingEmptyPlatform (plat : String)
  /-- "Removed platform: P" (line 949) -/
  | removedPlatform (pname : String)
  /-- "P's tags:" followed by the table (lines 188 and 548) -/
  | platformTags (plat : String) (rows : List Row)
  /-- The usage text of the root command (line 130) -/
  | usage
  deriving DecidableEq, Repr

/-- What `MsgHandle` hands back: `(send, nil)`, `(nil, err)`, or a run-time panic. -/
inductive Result where
  | send (messages : List Reply)
  | error (err : Err)
  | panic
  deriving DecidableEq, Repr

/-! ## Messages and reactions -/

/-- The part of `discordgo.User` the handlers read. -/
structure User where
  ID : String
  Username : String
  deriving DecidableEq, Repr

/-- The part of `discordgo.Message` the handlers read. -/
structure Message where
  ID : String
  ChannelID : String
  GuildID : String
  Author : User
  deriving DecidableEq, Repr

/-- The part of `discordgo.MessageReactionAdd` the reaction handler reads. -/
structure MessageReaction where
  MessageID : String
  UserID : String
  EmojiName : String
  deriving DecidableEq, Repr

/-! ## The world: storage, semaphores, trace -/

/-- Calls made to the locks, the storage and the transport, in order. -/
inductive Event where
  | tryAcquireAdd (ok : Bool)
  | releaseAdd
  | tryAcquireClean (ok : Bool)
  | releaseClean
  | dbLock
  | dbUnlock
  | dbGet
  | dbSet
  | promptSend (channelID plat : String)
  | reactionAdd (messageID emoji : String)
  | goWait
  | reactionsRemoveAll (messageID : String)
  | ackSend (channelID plat : String)
  | stateMember (guildID uid : String)
  | guildMember (guildID uid : String)
  | guildRoleDelete (guildID roleID : String)
  deriving DecidableEq, Repr

/-- The process-wide state the handlers share.  `db` is the value stored under
`tagsKey` (`none`: nothing stored yet); a semaphore of weight one is `true`
while it is held. -/
structure World where
  db : Option tagStorer
  addSemaphore : Bool
  cleanSemaphore : Bool
  trace : List Event
  deriving DecidableEq, Repr

/-- Append one call to the trace. -/
def World.log (w : World) (e : Event) : World :=
  { w with trace := w.trace ++ [e] }

/-- The behaviour of the collaborators during one handler call. -/
structure Env where
  /-- `DBGet` fails with this error, one other than `ErrDBNotFound`. -/
  dbGetErr : Option String
  /-- `DBSet` fails with this error. -/
  dbSetErr : Option String
  /-- The message returned by the first `ChannelMessageSend` of `tags add`;
  `none` is the nil pointer of a failed send. -/
  promptSend : Option Message
  /-- The error of `MessageReactionAdd` for the given emoji. -/
  reactionAddErr : String → Option String
  /-- The value the command receives from the channel `reaction` at line 300.
  `true` is sent at line 282 only, by the handler on an affirm reaction of the
  requester to the prompt (the wait ends Confirmed); `false` is sent at line 285,
  by the handler on a deny reaction (Denied), and at line 293, by the timer
  (TimedOut).  Which of the sends the command receives is decided by the
  interleaving of the wait, see `Rendezvous`. -/
  received : Bool
  /-- The lookup `ses.State.Member(guildID, uid)`: the user name, or failure. -/
  StateMember : String → String → Option String
  /-- The lookup `ses.GuildMember(guildID, uid)`: the user name, or failure. -/
  GuildMember : String → String → Option String

/-- Outcome of `commands.DBGet`. -/
inductive DBGetResult where
  | notFound
  | failed (text : String)
  | found (tgs : tagStorer)
  deriving DecidableEq, Repr

/-- Modelled from the spec: `commands.DBGet` is not among the sources; the spec
gives `loadDirectory(key) -> Directory or NotFound`, and the handlers also
branch on any other error. -/
def DBGet (env : Env) (w : World) : DBGetResult × World :=
  let w1 := w.log Event.dbGet
  match env.dbGetErr with
  | some text => (DBGetResult.failed text, w1)
  | none =>
    match w.db with
    | none => (DBGetResult.notFound, w1)
    | some tgs => (DBGetResult.found tgs, w1)

/-- Modelled from the spec: `commands.DBSet` is not among the sources; the spec
gives `saveDirectory(key, Directory) -> ok or error`, one atomic save. -/
def DBSet (env : Env) (tgs : tagStorer) (w : World) : Option String × World :=
  let w1 := w.log Event.dbSet
  match env.dbSetErr with
  | some text => (some text, w1)
  | none => (none, { w1 with db := some tgs })

/-! ## tags add (tags.go lines 191-334) -/

/-- The command `tags add` with its parsed arguments. -/
structure tagsAdd where
  Platform : String
  Tag : List String
  deriving DecidableEq, Repr

/-- The reaction handler of lines 267-288 on one event: the value it sends on
the channel `reaction`, or `none` when it returns without sending. -/
def reactionHandler (warID authorID : String) (no : MessageReaction) : Option Bool :=
  if no.MessageID ≠ warID ∨ no.UserID ≠ authorID then none
  else if no.EmojiName = emojiConfirm then some true
  else if no.EmojiName = emojiDeny then some false
  else none

/-- The checks of lines 208-218, made before any lock is taken. -/
def tagsAdd.validate (t : tagsAdd) : Option Err :=
  if t.Tag.length = 0 then some Err.provideTag
  else if (String.intercalate " " t.Tag).utf8ByteSize > tagLimit then some Err.ErrTagTooLong
  else if t.Platform.utf8ByteSize > platLimit then some Err.ErrPlatTooLong
  else none

/-- Lines 318-324: the tag `tags add` builds for its caller. -/
def tagsAdd.entry (t : tagsAdd) (msg : Message) : tag :=
  { UID := msg.Author.ID, Username := msg.Author.Username,
    Tag := String.intercalate " " t.Tag, Platform := t.Platform, PingMe := true }

/-- Lines 317-324: the directory after the caller's tag is written into `plt`
and `plt` is kept under its key. -/
def tagsAdd.write (t : tagsAdd) (msg : Message) (tgs : tagStorer) (plt : platform) :
    tagStorer :=
  let plt1 : platform := { plt with Users := plt.Users.set msg.Author.ID (tagsAdd.entry t msg) }
  { Platforms := tgs.Platforms.set t.Platform plt1 }

/-- Lines 317-333: write the caller's tag and save the directory. -/
def tagsAdd.store (env : Env) (t : tagsAdd) (msg : Message) (tgs : tagStorer)
    (plt : platform) (w : World) : Result × World :=
  match DBSet env (tagsAdd.write t msg tgs plt) w with
  | (some text, w1) => (Result.error (Err.collaborator text), w1)
  | (none, w1) =>
    (Result.send [Reply.successAdded (String.intercalate " " t.Tag) t.Platform], w1)

/-- Lines 309-313: the platform created after a confirmation. -/
def tagsAdd.newPlatform (t : tagsAdd) : platform :=
  { Name := t.Platform, Role := none, Users := [] }

/-- Lines 241-315: the platform is new, so ask the caller to confirm.  The
command starts the goroutine of lines 265-297 and waits for one value on the
channel `reaction` (line 300); what the goroutine and the reaction handler do
meanwhile is the subject of `Rendezvous`, and the value received is
`env.received`.  The removal of the reactions is deferred (lines 259-261). -/
def tagsAdd.confirm (env : Env) (t : tagsAdd) (msg : Message) (tgs : tagStorer)
    (w : World) : Result × World :=
  let w1 := w.log (Event.promptSend msg.ChannelID t.Platform)
  match env.promptSend with
  | none => (Result.panic, w1)
  | some war =>
    let w2 := w1.log (Event.reactionAdd war.ID emojiConfirm)
    match env.reactionAddErr emojiConfirm with
    | some text => (Result.error (Err.collaborator text), w2)
    | none =>
      let w3 := w2.log (Event.reactionAdd war.ID emojiDeny)
      match env.reactionAddErr emojiDeny with
      | some text => (Result.error (Err.collaborator text), w3)
      | none =>
        let w4 := w3.log Event.goWait
        let rw : Result × World :=
          if env.received = false then
            (Result.send [Reply.abortingPlatformCreation], w4)
          else
            let w6 := w4.log (Event.ackSend msg.ChannelID t.Platform)
            tagsAdd.store env t msg tgs (tagsAdd.newPlatform t) w6
        (rw.1, rw.2.log (Event.reactionsRemoveAll war.ID))

/-- Lines 231-233: the directory the handler works on, a fresh one when nothing
is stored yet. -/
def tagsAdd.loaded (w : World) : tagStorer :=
  match w.db with
  | none => { Platforms := [] }
  | some tgs => tgs

/-- The reply of line 332. -/
def tagsAdd.success (t : tagsAdd) : Result :=
  Result.send [Reply.successAdded (String.intercalate " " t.Tag) t.Platform]

/-- Lines 226-334: the part of the handler that runs holding the semaphore and
the table lock. -/
def tagsAdd.locked (env : Env) (t : tagsAdd) (msg : Message) (w : World) :
    Result × World :=
  match DBGet env w with
  | (DBGetResult.failed text, w1) => (Result.error (Err.collaborator text), w1)
  | (DBGetResult.notFound, w1) => tagsAdd.confirm env t msg { Platforms := [] } w1
  | (DBGetResult.found tgs, w1) =>
    match tgs.Platforms.get? t.Platform with
    | none => tagsAdd.confirm env t msg tgs w1
    | some plt => tagsAdd.store env t msg tgs plt w1

/-- The handler `(*tagsAdd).MsgHandle` (lines 203-334). -/
def tagsAdd.MsgHandle (env : Env) (t : tagsAdd) (msg : Message) (w : World) :
    Result × World :=
  match t.validate with
  | some err => (Result.error err, w)
  | none =>
    if w.addSemaphore then
      (Result.send [Reply.pleaseDontAdd], w.log (Event.tryAcquireAdd false))
    else
      let w1 := ({ w with addSemaphore := true }.log (Event.tryAcquireAdd true)).log Event.dbLock
      let rw := tagsAdd.locked env t msg w1
      let w3 := rw.2.log Event.dbUnlock
      (rw.1, { w3 with addSemaphore := false }.log Event.releaseAdd)

/-! ## tags get (tags.go lines 431-464) -/

/-- The command `tags get`. -/
structure tagsGet where
  Platform : String
  deriving DecidableEq, Repr

/-- The handler `(*tagsGet).MsgHandle` (lines 442-464). -/
def tagsGet.MsgHandle (env : Env) (t : tagsGet) (msg : Message) (w : World) :
    Result × World :=
  match DBGet env w with
  | (DBGetResult.failed text, w1) => (Result.error (Err.collaborator text), w1)
  | (DBGetResult.notFound, w1) => (Result.error Err.ErrNoTags, w1)
  | (DBGetResult.found tgs, w1) =>
    match tgs.Platforms.get? t.Platform with
    | none => (Result.error Err.ErrNoPlatform, w1)
    | some plt =>
      match plt.Users.get? msg.Author.ID with
      | none => (Result.error Err.ErrNoUser, w1)
      | some utg => (Result.send [Reply.yourTagIs utg.Tag utg.Platform], w1)

/-! ## tags clean (tags.go lines 336-429) -/

/-- The command `tags clean`; it has no arguments. -/
structure tagsClean where
  deriving DecidableEq, Repr

/-- The two-tier lookup of lines 401-413: `State.Member` first, `GuildMember`
when that fails.  The result is the user name, `none` when both fail. -/
def resolveMember (env : Env) (guildID uid : String) (w : World) : Option String × World :=
  let w1 := w.log (Event.stateMember guildID uid)
  match env.StateMember guildID uid with
  | some name => (some name, w1)
  | none => (env.GuildMember guildID uid, w1.log (Event.guildMember guildID uid))

/-- The inner loop of lines 389-420 over the users of one platform, in
iteration order.  `checkMap` caches the verdict on every uid already looked up
in this pass.  Deleting the key being visited drops the visited entry. -/
def tagsClean.rangeUsers (env : Env) (guildID : String) :
    GoMap tag → GoMap Bool → World → GoMap tag × GoMap Bool × World
  | [], checkMap, w => ([], checkMap, w)
  | (uid, utg) :: rest, checkMap, w =>
    match checkMap.get? uid with
    | some res =>
      let (users, checkMap1, w1) := tagsClean.rangeUsers env guildID rest checkMap w
      if res then ((uid, utg) :: users, checkMap1, w1) else (users, checkMap1, w1)
    | none =>
      match resolveMember env guildID uid w with
      | (none, w1) => tagsClean.rangeUsers env guildID rest (checkMap.set uid false) w1
      | (some name, w1) =>
        let (users, checkMap1, w2) :=
          tagsClean.rangeUsers env guildID rest (checkMap.set uid true) w1
        ((uid, { utg with Username := name }) :: users, checkMap1, w2)

/-- The outer loop of lines 379-421 over the platforms, in iteration order.  The
emptiness test of line 381 is made when the platform is reached, before its
users are checked. -/
def tagsClean.rangePlatforms (env : Env) (guildID : String) :
    GoMap platform → GoMap Bool → World → GoMap platform × GoMap Bool × World
  | [], checkMap, w => ([], checkMap, w)
  | (pname, plt) :: rest, checkMap, w =>
    if plt.Users.len = 0 ∨ plt.Name.utf8ByteSize = 0 then
      tagsClean.rangePlatforms env guildID rest checkMap w
    else
      let (users, checkMap1, w1) := tagsClean.rangeUsers env guildID plt.Users checkMap w
      let (plats, checkMap2, w2) := tagsClean.rangePlatforms env guildID rest checkMap1 w1
      ((pname, { plt with Users := users }) :: plats, checkMap2, w2)

/-- Lines 363-428: the part of the handler that runs holding the semaphore and
the table lock. -/
def tagsClean.locked (env : Env) (msg : Message) (w : World) : Result × World :=
  match DBGet env w with
  | (DBGetResult.failed text, w1) => (Result.error (Err.collaborator text), w1)
  | (DBGetResult.notFound, w1) => (Result.error Err.ErrNoTags, w1)
  | (DBGetResult.found tgs, w1) =>
    let out := tagsClean.rangePlatforms env msg.GuildID tgs.Platforms [] w1
    match DBSet env { Platforms := out.1 } out.2.2 with
    | (some text, w3) => (Result.error (Err.collaborator text), w3)
    | (none, w3) => (Result.send [Reply.allClean], w3)

/-- The handler `(*tagsClean).MsgHandle` (lines 353-429). -/
def tagsClean.MsgHandle (env : Env) (_t : tagsClean) (msg : Message) (w : World) :
    Result × World :=
  if w.cleanSemaphore then
    (Result.error Err.ErrCleanSpam, w.log (Event.tryAcquireClean false))
  else
    let w1 :=
      ({ w with cleanSemaphore := true }.log (Event.tryAcquireClean true)).log Event.dbLock
    let rw := tagsClean.locked env msg w1
    let w3 := rw.2.log Event.dbUnlock
    (rw.1, { w3 with cleanSemaphore := false }.log Event.releaseClean)

/-! ## tags shutup (tags.go lines 645-688) -/

/-- The command `tags shutup`; it has no arguments. -/
structure tagsShutup where
  deriving DecidableEq, Repr

/-- The loop of lines 672-680: switch the caller's pings off on every platform
that holds a tag of theirs. -/
def tagsShutup.rangePlatforms (uid : String) (plats : GoMap platform) : GoMap platform :=
  plats.map (fun e =>
    match e.2.Users.get? uid with
    | none => e
    | some utg => (e.1, { e.2 with Users := e.2.Users.set uid { utg with PingMe := false } }))

/-- The handler `(*tagsShutup).MsgHandle` (lines 655-688). -/
def tagsShutup.MsgHandle (env : Env) (_t : tagsShutup) (msg : Message) (w : World) :
    Result × World :=
  let w0 := w.log Event.dbLock
  let rw : Result × World :=
    match DBGet env w0 with
    | (DBGetResult.failed text, w1) => (Result.error (Err.collaborator text), w1)
    | (DBGetResult.notFound, w1) => (Result.error Err.ErrNoTags, w1)
    | (DBGetResult.found tgs, w1) =>
      let tgs1 : tagStorer :=
        { Platforms := tagsShutup.rangePlatforms msg.Author.ID tgs.Platforms }
      match DBSet env tgs1 w1 with
      | (some text, w2) => (Result.error (Err.collaborator text), w2)
      | (none, w2) => (Result.send [Reply.noLongerPings], w2)
  (rw.1, rw.2.log Event.dbUnlock)

/-! ## tags pingme (tags.go lines 690-744) -/

/-- The command `tags pingme`. -/
structure tagsPingMe where
  Platform : String
  PingMe : Bool
  deriving DecidableEq, Repr

/-- The handler `(*tagsPingMe).MsgHandle` (lines 702-744). -/
def tagsPingMe.MsgHandle (env : Env) (t : tagsPingMe) (msg : Message) (w : World) :
    Result × World :=
  let w0 := w.log Event.dbLock
  let rw : Result × World :=
    match DBGet env w0 with
    | (DBGetResult.failed text, w1) => (Result.error (Err.collaborator text), w1)
    | (DBGetResult.notFound, w1) => (Result.error Err.ErrNoTags, w1)
    | (DBGetResult.found tgs, w1) =>
      match tgs.Platforms.get? t.Platform with
      | none => (Result.error Err.ErrNoPlatform, w1)
      | some plt =>
        match plt.Users.get? msg.Author.ID with
        | none => (Result.error Err.ErrNoUser, w1)
        | some utg =>
          let plt1 : platform :=
            { plt with Users := plt.Users.set msg.Author.ID { utg with PingMe := t.PingMe } }
          let tgs1 : tagStorer := { Platforms := tgs.Platforms.set t.Platform plt1 }
          match DBSet env tgs1 w1 with
          | (some text, w2) => (Result.error (Err.collaborator text), w2)
          | (none, w2) => (Result.send [Reply.pingStatus t.PingMe t.Platform], w2)
  (rw.1, rw.2.log Event.dbUnlock)

/-! ## tags remove (tags.go lines 746-805) -/

/-- The command `tags remove`. -/
structure tagsRemove where
  Platform : String
  deriving DecidableEq, Repr

/-- The handler `(*tagsRemove).MsgHandle` (lines 757-805).  Line 792 reads
`plt.Role.ID` through the pointer `plt.Role`, which panics when it is nil. -/
def tagsRemove.MsgHandle (env : Env) (t : tagsRemove) (msg : Message) (w : World) :
    Result × World :=
  let w0 := w.log Event.dbLock
  let rw : Result × World :=
    match DBGet env w0 with
    | (DBGetResult.failed text, w1) => (Result.error (Err.collaborator text), w1)
    | (DBGetResult.notFound, w1) => (Result.error Err.ErrNoTags, w1)
    | (DBGetResult.found tgs, w1) =>
      match tgs.Platforms.get? t.Platform with
      | none => (Result.error Err.ErrNoPlatform, w1)
      | some plt =>
        match plt.Users.get? msg.Author.ID with
        | none => (Result.error Err.ErrNoUser, w1)
        | some _ =>
          let users := plt.Users.delete msg.Author.ID
          if users.len = 0 then
            match plt.Role with
            | none => (Result.panic, w1)
            | some role =>
              let w2 := w1.log (Event.guildRoleDelete msg.GuildID role.ID)
              let tgs1 : tagStorer := { Platforms := tgs.Platforms.delete t.Platform }
              match DBSet env tgs1 w2 with
              | (some text, w3) => (Result.error (Err.collaborator text), w3)
              | (none, w3) =>
                (Result.send [Reply.removedYourTag t.Platform,
                  Reply.removingEmptyPlatform t.Platform], w3)
          else
            let tgs1 : tagStorer :=
              { Platforms := tgs.Platforms.set t.Platform { plt with Users := users } }
            match DBSet env tgs1 w1 with
            | (some text, w2) => (Result.error (Err.collaborator text), w2)
            | (none, w2) => (Result.send [Reply.removedYourTag t.Platform], w2)
  (rw.1, rw.2.log Event.dbUnlock)

/-! ## tags modremove (tags.go lines 909-954) -/

/-- The command `tags modremove`. -/
structure tagsModRemove where
  Platform : String
  deriving DecidableEq, Repr

/-- The handler `(*tagsModRemove).MsgHandle` (lines 922-954): the loop of lines
939-951 stops at the first key equal to the argument. -/
def tagsModRemove.MsgHandle (env : Env) (t : tagsModRemove) (_msg : Message) (w : World) :
    Result × World :=
  let w0 := w.log Event.dbLock
  let rw : Result × World :=
    match DBGet env w0 with
    | (DBGetResult.failed text, w1) => (Result.error (Err.collaborator text), w1)
    | (DBGetResult.notFound, w1) => (Result.error Err.ErrNoTags, w1)
    | (DBGetResult.found tgs, w1) =>
      match tgs.Platforms.keys.find? (fun pname => decide (pname = t.Platform)) with
      | none => (Result.error Err.ErrNoPlatform, w1)
      | some pname =>
        let tgs1 : tagStorer := { Platforms := tgs.Platforms.delete pname }
        match DBSet env tgs1 w1 with
        | (some text, w2) => (Result.error (Err.collaborator text), w2)
        | (none, w2) => (Result.send [Reply.removedPlatform pname], w2)
  (rw.1, rw.2.log Event.dbUnlock)

/-! ## tags list and the root command (tags.go lines 116-189, 466-549) -/

/-- The loop of lines 503-518 (and 143-158) over the users of the platform, in
iteration order: the entry with its user name refreshed, or nil when both
member lookups fail.  The lookup is made with the `UID` field of the entry. -/
def tagsList.rangeUsers (env : Env) (guildID : String) :
    GoMap tag → World → List (Option tag) × World
  | [], w => ([], w)
  | (_, utg) :: rest, w =>
    let found := resolveMember env guildID utg.UID w
    let out := tagsList.rangeUsers env guildID rest found.2
    match found.1 with
    | none => (none :: out.1, out.2)
    | some name => (some { utg with Username := name } :: out.1, out.2)

/-- The comparison function of lines 520-530 on the elements at `i` and `j`:
`false` when the element at `i` is nil, otherwise whether `strings.Compare` of
the two user names is negative, which reads `utags[j].Username` and so panics
(`none`) when the element at `j` is nil.  `strings.Compare` orders the texts by
their bytes, which for UTF-8 is the order of their lists of characters. -/
def tagsList.less : Option tag → Option tag → Option Bool
  | none, _ => some false
  | some _, none => none
  | some a, some b => some (decide (a.Username.data < b.Username.data))

/-- The inner loop of Go's `insertionSortLessFunc`: the element `x` at index `j`
moves down while `less(j, j-1)` holds.  `before` holds the sorted elements
below `j`, nearest first.  `none` is a panic inside `less`. -/
def insertDown {α : Type} (less : α → α → Option Bool) (x : α) : List α → Option (List α)
  | [] => some [x]
  | y :: before =>
    match less x y with
    | none => none
    | some true => (insertDown less x before).map (fun moved => y :: moved)
    | some false => some (x :: y :: before)

/-- The outer loop of Go's `insertionSortLessFunc` over the elements not yet
placed; `before` is the sorted part, last element first. -/
def insertionSortLessFunc {α : Type} (less : α → α → Option Bool) :
    List α → List α → Option (List α)
  | before, [] => some before.reverse
  | before, x :: rest =>
    match insertDown less x before with
    | none => none
    | some before1 => insertionSortLessFunc less before1 rest

/-- Modelled from the library: `sort.Slice` of Go's standard library, which for
short slices is `insertionSortLessFunc` alone (at most 6 elements in every Go
release, at most 12 from Go 1.19 on).  Longer slices are sorted by a quicksort
that is not modelled. -/
def sortSlice {α : Type} (less : α → α → Option Bool) (data : List α) : Option (List α) :=
  insertionSortLessFunc less [] data

/-- Lines 533-546: one line of the table per element of the sorted slice. -/
def tagsList.rows : List (Option tag) → List Row
  | [] => []
  | none :: rest => Row.invalid :: tagsList.rows rest
  | some utg :: rest => Row.entry utg.PingMe utg.Username utg.Tag :: tagsList.rows rest

/-- Lines 503-548 (and 143-188): refresh the names, sort, and write the table. -/
def tagsList.table (env : Env) (platName : String) (msg : Message) (plt : platform)
    (w : World) : Result × World :=
  let utags := tagsList.rangeUsers env msg.GuildID plt.Users w
  match sortSlice tagsList.less utags.1 with
  | none => (Result.panic, utags.2)
  | some sorted => (Result.send [Reply.platformTags platName (tagsList.rows sorted)], utags.2)

/-- The command `tags list`. -/
structure tagsList where
  Platform : String
  deriving DecidableEq, Repr

/-- The handler `(*tagsList).MsgHandle` (lines 477-549). -/
def tagsList.MsgHandle (env : Env) (t : tagsList) (msg : Message) (w : World) :
    Result × World :=
  match DBGet env w with
  | (DBGetResult.failed text, w1) => (Result.error (Err.collaborator text), w1)
  | (DBGetResult.notFound, w1) => (Result.error Err.ErrNoTags, w1)
  | (DBGetResult.found tgs, w1) =>
    match tgs.Platforms.get? t.Platform with
    | none => (Result.error Err.ErrNoPlatform, w1)
    | some plt => tagsList.table env t.Platform msg plt w1

/-- The root command `tags` with its platform argument. -/
structure tags where
  Platform : String
  deriving DecidableEq, Repr

/-- The handler `(*tags).MsgHandle` (lines 116-189): the table of the platform,
or the usage text when there is no such platform. -/
def tags.MsgHandle (env : Env) (t : tags) (msg : Message) (w : World) : Result × World :=
  match DBGet env w with
  | (DBGetResult.failed text, w1) => (Result.error (Err.collaborator text), w1)
  | (DBGetResult.notFound, w1) => (Result.error Err.ErrNoTags, w1)
  | (DBGetResult.found tgs, w1) =>
    match tgs.Platforms.get? t.Platform with
    | none => (Result.send [Reply.usage], w1)
    | some plt => tagsList.table env t.Platform msg plt w1

/-! ## The daily clean (tags.go lines 956-992) -/

/-- The message `doClean` hands to the handler (lines 969-972); the fields it
does not set have their zero value. -/
def cleanMessage : Message :=
  { ID := "", ChannelID := cleanChannelID, GuildID := cleanGuildID,
    Author := { ID := "", Username := "" } }

/-- The closure `doClean` (lines 963-978), run on every tick of the hourly
ticker.  `hour` is `time.Now().Hour()`; an error of the handler is logged and
dropped. -/
def doClean (env : Env) (hour : Nat) (w : World) : World :=
  if hour = 2 + 11 then (tagsClean.MsgHandle env {} cleanMessage w).2 else w

/-! ## The confirmation wait as interleaved steps (tags.go lines 263-303)

The command, the goroutine of lines 265-297 and every call of the reaction
handler run concurrently and meet on the two unbuffered channels `reaction`
and `reacted`.  A send on an unbuffered channel completes only together with a
receive; the command receives from `reaction` once (line 300), the goroutine
receives from `reacted` at most once, in its `select` (line 291). -/

/-- Where one call of the reaction handler (lines 267-288) stands. -/
inductive Invocation where
  /-- at `reaction <- value` (line 282 or 285) -/
  | atReaction (value : Bool)
  /-- at `reacted <- 0` (line 283 or 286) -/
  | atReacted
  /-- the call has returned -/
  | returned
  deriving DecidableEq, Repr

/-- Where the goroutine of lines 265-297 stands, after `AddHandler`. -/
inductive Waiter where
  /-- in the `select` of line 290 -/
  | selecting
  /-- the timer case was taken: at `reaction <- false` (line 293) -/
  | atTimeout
  /-- past the `select`, before `kill()` (line 296) -/
  | beforeKill
  /-- `kill()` has been called -/
  | finished
  deriving DecidableEq, Repr

/-- The state of one confirmation wait.  `received` is the value the command
got from `reaction` at line 300, `none` while it still waits; `registered` says
whether the handler is attached to the session; `kills` counts calls of
`kill()`; `invocations` are the calls of the handler that sent or will send. -/
structure Rendezvous where
  received : Option Bool
  waiter : Waiter
  registered : Bool
  kills : Nat
  invocations : List Invocation
  deriving DecidableEq, Repr

/-- The steps the wait can take. -/
inductive Action where
  /-- the session delivers a reaction event to the handlers attached to it -/
  | event (no : MessageReaction)
  /-- the command receives the value invocation `i` sends on `reaction` -/
  | receive (i : Nat)
  /-- `time.After` fires and the `select` takes that case -/
  | timer
  /-- the command receives the `false` the goroutine sends at line 293 -/
  | receiveTimeout
  /-- the `select` receives what invocation `i` sends on `reacted` -/
  | reacted (i : Nat)
  /-- the goroutine calls `kill()` -/
  | kill
  deriving DecidableEq, Repr

/-- The wait when the goroutine has attached the handler and entered `select`. -/
def Rendezvous.init : Rendezvous :=
  { received := none, waiter := Waiter.selecting, registered := true, kills := 0,
    invocations := [] }

/-- One step of the wait; `none` when the step cannot be taken in this state.
An event the handler returns on without sending (line 276, or no case of the
`switch`) leaves the state as it is. -/
def Rendezvous.step (warID authorID : String) (c : Rendezvous) : Action → Option Rendezvous
  | Action.event no =>
    if c.registered then
      match reactionHandler warID authorID no with
      | none => some c
      | some value =>
        some { c with invocations := c.invocations ++ [Invocation.atReaction value] }
    else some c
  | Action.receive i =>
    match c.received, c.invocations.get? i with
    | none, some (Invocation.atReaction value) =>
      some { c with received := some value,
                    invocations := c.invocations.set i Invocation.atReacted }
    | _, _ => none
  | Action.timer =>
    match c.waiter with
    | Waiter.selecting => some { c with waiter := Waiter.atTimeout }
    | _ => none
  | Action.receiveTimeout =>
    match c.received, c.waiter with
    | none, Waiter.atTimeout => some { c with received := some false, waiter := Waiter.beforeKill }
    | _, _ => none
  | Action.reacted i =>
    match c.waiter, c.invocations.get? i with
    | Waiter.selecting, some Invocation.atReacted =>
      some { c with waiter := Waiter.beforeKill,
                    invocations := c.invocations.set i Invocation.returned }
    | _, _ => none
  | Action.kill =>
    match c.waiter with
    | Waiter.beforeKill =>
      some { c with waiter := Waiter.finished, registered := false, kills := c.kills + 1 }
    | _ => none

/-- A sequence of steps, one after the other. -/
def Rendezvous.run (warID authorID : String) : Rendezvous → List Action → Option Rendezvous
  | c, [] => some c
  | c, a :: rest =>
    match c.step warID authorID a with
    | none => none
    | some c1 => Rendezvous.run warID authorID c1 rest

/-! ## Predicates used by the statements -/

/-- Every platform of the directory has at least one user. -/
def tagStorer.usersNonEmpty (tgs : tagStorer) : Prop :=
  ∀ e ∈ tgs.Platforms, 0 < e.2.Users.len

instance (tgs : tagStorer) : Decidable tgs.usersNonEmpty :=
  inferInstanceAs (Decidable (∀ e ∈ tgs.Platforms, 0 < e.2.Users.len))

/-- The stored directory, if there is one, has no platform without users. -/
def World.usersNonEmpty (w : World) : Prop :=
  ∀ tgs, w.db = some tgs → tgs.usersNonEmpty

instance (w : World) : Decidable w.usersNonEmpty :=
  match h : w.db with
  | none => isTrue (by intro tgs ht; rw [h] at ht; cases ht)
  | some tgs =>
    if hu : tgs.usersNonEmpty then
      isTrue (by intro tgs1 ht; rw [h] at ht; cases ht; exact hu)
    else
      isFalse (fun hall => hu (hall tgs h))

/-- The answer of the two-tier lookup of lines 401-413 for one user id. -/
def Env.memberName (env : Env) (guildID uid : String) : Option String :=
  match env.StateMember guildID uid with
  | some name => some name
  | none => env.GuildMember guildID uid

/-- The fields of a tag other than the cached user name. -/
def tag.kept (utg : tag) : String × String × String × Bool :=
  (utg.UID, utg.Tag, utg.Platform, utg.PingMe)

/-- The entries of a user map whose key the lookup resolves. -/
def tagsClean.survivors (env : Env) (guildID : String) (users : GoMap tag) : GoMap tag :=
  users.filter (fun e => (env.memberName guildID e.1).isSome)

/-- The platforms with a non-empty name and a non-empty user map. -/
def tagsClean.visited (plats : GoMap platform) : GoMap platform :=
  plats.filter (fun e => decide (¬ (e.2.Users.len = 0 ∨ e.2.Name.utf8ByteSize = 0)))

/-- The user ids of the member lookups in a trace, one per lookup, in order;
the `GuildMember` call that follows a failed `State.Member` belongs to the same
lookup. -/
def resolverCalls : List Event → List String
  | [] => []
  | Event.stateMember _ uid :: rest => uid :: resolverCalls rest
  | _ :: rest => resolverCalls rest

/-- The keys of all user maps of the platforms, with repetitions. -/
def owners : GoMap platform → List String
  | [] => []
  | e :: rest => e.2.Users.keys ++ owners rest

/-- The number of distinct user ids in the stored directory. -/
def World.distinctOwners (w : World) : Nat :=
  match w.db with
  | none => 0
  | some tgs => (owners tgs.Platforms).dedup.length

/-! ## Example inputs -/

/-- The user U1. -/
def exampleUser : User := { ID := "U1", Username := "alice" }

/-- A command message written by U1. -/
def exampleMsg : Message :=
  { ID := "m0", ChannelID := "c1", GuildID := "g1", Author := exampleUser }

/-- The prompt the bot posts when a platform is new. -/
def examplePrompt : Message :=
  { ID := "m1", ChannelID := "c1", GuildID := "g1",
    Author := { ID := "bot", Username := "bot" } }

/-- Collaborators that work, with U1 reacting to the prompt with `emoji` and
nothing else happening before the command receives: it receives what the
handler sends on that reaction, or the `false` of the timer when the handler
sends nothing.  No user id resolves to a member. -/
def exampleEnv (emoji : String) : Env :=
  { dbGetErr := none, dbSetErr := none, promptSend := some examplePrompt,
    reactionAddErr := fun _ => none,
    received :=
      match reactionHandler "m1" "U1" { MessageID := "m1", UserID := "U1", EmojiName := emoji } with
      | some value => value
      | none => false,
    StateMember := fun _ _ => none, GuildMember := fun _ _ => none }

/-- Collaborators that work, with no reaction before the timer fires: the
command receives the `false` of the timer. -/
def exampleEnvSilent : Env :=
  { dbGetErr := none, dbSetErr := none, promptSend := some examplePrompt,
    reactionAddErr := fun _ => none, received := false,
    StateMember := fun _ _ => none, GuildMember := fun _ _ => none }

/-- The command `tags add Game main#1234`. -/
def exampleAdd : tagsAdd := { Platform := "Game", Tag := ["main#1234"] }

/-- The tag of U1 on "Game". -/
def exampleTag : tag :=
  { UID := "U1", Username := "alice", Tag := "main#1234", Platform := "Game", PingMe := true }

/-- Nothing stored yet, both semaphores free. -/
def exampleEmpty : World :=
  { db := none, addSemaphore := false, cleanSemaphore := false, trace := [] }

/-- The directory with the one platform "Game" and its one user U1. -/
def exampleGame : World :=
  { db := some { Platforms :=
      [("Game", { Name := "Game", Role := none, Users := [("U1", exampleTag)] })] },
    addSemaphore := false, cleanSemaphore := false, trace := [] }

/-- The command `tags add Game` with a tag of 33 letters of two bytes each. -/
def exampleAddAccents : tagsAdd :=
  { Platform := "Game", Tag := ["ééééééééééééééééééééééééééééééééé"] }

/-- The command `tags add Game` with no tag words. -/
def exampleAddNoTag : tagsAdd := { Platform := "Game", Tag := [] }

/-- The calls of an unconfirmed `tags add` on a new platform, in order. -/
def tagsAdd.abortTrace (t : tagsAdd) (msg war : Message) : List Event :=
  [Event.tryAcquireAdd true, Event.dbLock, Event.dbGet,
    Event.promptSend msg.ChannelID t.Platform,
    Event.reactionAdd war.ID emojiConfirm, Event.reactionAdd war.ID emojiDeny,
    Event.goWait, Event.reactionsRemoveAll war.ID,
    Event.dbUnlock, Event.releaseAdd]

/-- The command `tags add` with a platform name of 21 letters. -/
def exampleAddLongPlatform : tagsAdd :=
  { Platform := "aaaaaaaaaaaaaaaaaaaaa", Tag := ["main#1234"] }

/-- The directory with "Game" and U1 while an earlier `tags add` and an earlier
`tags clean` hold their semaphores. -/
def exampleBusy : World :=
  { exampleGame with addSemaphore := true, cleanSemaphore := true }

/-- The tag of U1 on the platform `plat`, with the user name cached earlier. -/
def exampleTagOn (plat : String) : tag :=
  { UID := "U1", Username := "alice", Tag := "main#1234", Platform := plat, PingMe := true }

/-- The directory with the platforms "A" and "B", U1 the one user of each. -/
def exampleTwoPlatforms : World :=
  { db := some { Platforms :=
      [("A", { Name := "A", Role := none, Users := [("U1", exampleTagOn "A")] }),
       ("B", { Name := "B", Role := none, Users := [("U1", exampleTagOn "B")] })] },
    addSemaphore := false, cleanSemaphore := false, trace := [] }

/-- Collaborators that work; U1 is a member and is now called "alicia". -/
def exampleEnvRenamed : Env :=
  { dbGetErr := none, dbSetErr := none, promptSend := some examplePrompt,
    reactionAddErr := fun _ => none, received := false,
    StateMember := fun _ uid => if uid = "U1" then some "alicia" else none,
    GuildMember := fun _ _ => none }

/-- The tag of U2 on "Game". -/
def exampleTagU2 : tag :=
  { UID := "U2", Username := "bob", Tag := "second#5678", Platform := "Game", PingMe := false }

/-- The directory with "Game" and the users U1 and U2, visited in this order. -/
def exampleTwoUsers : World :=
  { db := some { Platforms :=
      [("Game", { Name := "Game", Role := none,
                  Users := [("U1", exampleTag), ("U2", exampleTagU2)] })] },
    addSemaphore := false, cleanSemaphore := false, trace := [] }

/-- Collaborators that work; U2 is a member called "bob", U1 is not a member. -/
def exampleEnvOnlyU2 : Env :=
  { dbGetErr := none, dbSetErr := none, promptSend := some examplePrompt,
    reactionAddErr := fun _ => none, received := false,
    StateMember := fun _ uid => if uid = "U2" then some "bob" else none,
    GuildMember := fun _ _ => none }

/-- The platform "Game" where its one user U1 has switched the pings off. -/
def exampleGameOptedOut : platform :=
  { Name := "Game", Role := none, Users := [("U1", { exampleTag with PingMe := false })] }

/-- The directory with "Game", where U1 has switched the pings off. -/
def exampleOptedOut : World :=
  { db := some { Platforms := [("Game", exampleGameOptedOut)] },
    addSemaphore := false, cleanSemaphore := false, trace := [] }

/-- The command `tags edit Game other#42`. -/
def exampleEdit : tagsAdd := { Platform := "Game", Tag := ["other#42"] }

/-- A reaction of U1 to the prompt with the given emoji. -/
def exampleReaction (emoji : String) : MessageReaction :=
  { MessageID := "m1", UserID := "U1", EmojiName := emoji }

/-- The timer fires, the command receives its `false`, and U1's affirm
reaction is delivered before the goroutine has called `kill()`. -/
def exampleLateReaction : List Action :=
  [Action.timer, Action.receiveTimeout, Action.event (exampleReaction emojiConfirm),
    Action.kill]

/-- The state `exampleLateReaction` ends in. -/
def exampleLateBlocked : Rendezvous :=
  { received := some false, waiter := Waiter.finished, registered := false, kills := 1,
    invocations := [Invocation.atReaction true] }

/-- U1 affirms, the command receives `true`, and the timer fires before the
handler has reached its send on `reacted`. -/
def exampleTimerBetweenSends : List Action :=
  [Action.event (exampleReaction emojiConfirm), Action.receive 0, Action.timer]

/-- The state `exampleTimerBetweenSends` ends in. -/
def exampleNeverKilled : Rendezvous :=
  { received := some true, waiter := Waiter.atTimeout, registered := true, kills := 0,
    invocations := [Invocation.atReacted] }

/-- A reaction of another user, U2, to the prompt with the affirm emoji. -/
def exampleForeignReaction : MessageReaction :=
  { MessageID := "m1", UserID := "U2", EmojiName := emojiConfirm }

/-- Collaborators of which `DBSet` fails. -/
def exampleEnvSetFails : Env :=
  { dbGetErr := none, dbSetErr := some "write failed", promptSend := some examplePrompt,
    reactionAddErr := fun _ => none, received := false,
    StateMember := fun _ _ => none, GuildMember := fun _ _ => none }

/-! ## Lemmas on Go maps -/

namespace GoMap

variable {V : Type}

theorem get?_set_self (m : GoMap V) (k : String) (v : V) : (m.set k v).get? k = some v := by
  induction m with
  | nil => simp [set, get?]
  | cons e m ih =>
    obtain ⟨k', v'⟩ := e
    by_cases h : k' = k <;> simp [set, get?, h, ih]

theorem get?_set_ne (m : GoMap V) (k k' : String) (v : V) (h : k ≠ k') :
    (m.set k v).get? k' = m.get? k' := by
  induction m with
  | nil => simp [set, get?, h]
  | cons e m ih =>
    obtain ⟨k0, v0⟩ := e
    by_cases h0 : k0 = k
    · subst h0
      simp [set, get?, h]
    · simp [set, get?, h0, ih]

theorem mem_set (m : GoMap V) (k : String) (v : V) (e : String × V) (he : e ∈ m.set k v) :
    e ∈ m ∨ e = (k, v) := by
  induction m with
  | nil =>
    simp [set] at he
    exact Or.inr he
  | cons e0 m ih =>
    obtain ⟨k0, v0⟩ := e0
    by_cases h0 : k0 = k
    · simp [set, h0] at he
      rcases he with he | he
      · exact Or.inr he
      · exact Or.inl (List.mem_cons_of_mem _ he)
    · simp [set, h0] at he
      rcases he with he | he
      · exact Or.inl (by rw [he]; exact List.mem_cons_self _ _)
      · rcases ih he with h1 | h1
        · exact Or.inl (List.mem_cons_of_mem _ h1)
        · exact Or.inr h1

theorem len_set_pos (m : GoMap V) (k : String) (v : V) : 0 < (m.set k v).len := by
  cases m with
  | nil => simp [set, len]
  | cons e m =>
    obtain ⟨k0, v0⟩ := e
    by_cases h0 : k0 = k <;> simp [set, len, h0]

theorem mem_delete (m : GoMap V) (k : String) (e : String × V) (he : e ∈ m.delete k) :
    e ∈ m := by
  unfold delete at he
  exact (List.mem_filter.mp he).1

theorem get?_delete_self (m : GoMap V) (k : String) : (m.delete k).get? k = none := by
  induction m with
  | nil => simp [delete, get?]
  | cons e m ih =>
    obtain ⟨k0, v0⟩ := e
    by_cases h0 : k0 = k
    · simpa [delete, List.filter, h0] using ih
    · simpa [delete, List.filter, h0, get?] using ih

theorem get?_delete_ne (m : GoMap V) (k k' : String) (h : k ≠ k') :
    (m.delete k).get? k' = m.get? k' := by
  induction m with
  | nil => simp [delete, get?]
  | cons e m ih =>
    obtain ⟨k0, v0⟩ := e
    by_cases h0 : k0 = k
    · subst h0
      simpa [delete, List.filter, get?, h] using ih
    · simp only [delete, ne_eq, decide_not] at ih
      simp [delete, List.filter, h0, get?, ih]

theorem get?_mem (m : GoMap V) (k : String) (v : V) (h : m.get? k = some v) : (k, v) ∈ m := by
  induction m with
  | nil => simp [get?] at h
  | cons e m ih =>
    obtain ⟨k0, v0⟩ := e
    by_cases h0 : k0 = k
    · simp [get?, h0] at h
      simp [h0, h]
    · simp [get?, h0] at h
      exact List.mem_cons_of_mem _ (ih h)

theorem set_of_get?_none (m : GoMap V) (k : String) (v : V) (h : m.get? k = none) :
    m.set k v = m ++ [(k, v)] := by
  induction m with
  | nil => rfl
  | cons e m ih =>
    obtain ⟨k0, v0⟩ := e
    by_cases h0 : k0 = k
    · simp [get?, h0] at h
    · simp only [get?, h0, if_false] at h
      simp [set, h0, ih h]

theorem get?_append_ne (m : GoMap V) (k k' : String) (v : V) (h : k ≠ k') :
    get? (m ++ [(k, v)]) k' = m.get? k' := by
  induction m with
  | nil => simp [get?, h]
  | cons e m ih =>
    obtain ⟨k0, v0⟩ := e
    by_cases h0 : k0 = k' <;> simp [get?, h0, ih]

end GoMap

/-! ## Lemmas on the world and the storage calls -/

@[simp] theorem World.log_db (w : World) (e : Event) : (w.log e).db = w.db := rfl

@[simp] theorem World.log_addSemaphore (w : World) (e : Event) :
    (w.log e).addSemaphore = w.addSemaphore := rfl

@[simp] theorem World.log_cleanSemaphore (w : World) (e : Event) :
    (w.log e).cleanSemaphore = w.cleanSemaphore := rfl

@[simp] theorem World.log_trace (w : World) (e : Event) :
    (w.log e).trace = w.trace ++ [e] := rfl

theorem DBGet_snd (env : Env) (w : World) : (DBGet env w).2 = w.log Event.dbGet := by
  unfold DBGet
  cases env.dbGetErr <;> cases w.db <;> rfl

theorem DBSet_db (env : Env) (tgs : tagStorer) (w : World) :
    (DBSet env tgs w).2.db = if env.dbSetErr = none then some tgs else w.db := by
  unfold DBSet
  cases env.dbSetErr <;> simp

theorem DBSet_addSemaphore (env : Env) (tgs : tagStorer) (w : World) :
    (DBSet env tgs w).2.addSemaphore = w.addSemaphore := by
  unfold DBSet
  cases env.dbSetErr <;> simp

theorem DBSet_cleanSemaphore (env : Env) (tgs : tagStorer) (w : World) :
    (DBSet env tgs w).2.cleanSemaphore = w.cleanSemaphore := by
  unfold DBSet
  cases env.dbSetErr <;> simp

/-! ## tags add: what a call leaves in the store -/

/-- The store step either fails and leaves the directory alone, or reports
success and has saved the written directory. -/
theorem tagsAdd_store_cases (env : Env) (t : tagsAdd) (msg : Message) (tgs : tagStorer)
    (plt : platform) (w : World) :
    ((∃ text, env.dbSetErr = some text ∧
        (tagsAdd.store env t msg tgs plt w).1 = Result.error (Err.collaborator text)) ∧
      (tagsAdd.store env t msg tgs plt w).2.db = w.db) ∨
    (env.dbSetErr = none ∧
      (tagsAdd.store env t msg tgs plt w).1 =
        Result.send [Reply.successAdded (String.intercalate " " t.Tag) t.Platform] ∧
      (tagsAdd.store env t msg tgs plt w).2.db = some (tagsAdd.write t msg tgs plt)) := by
  unfold tagsAdd.store DBSet
  cases h : env.dbSetErr with
  | none => right; simp
  | some text => left; simp

theorem tagsAdd_write_get? (t : tagsAdd) (msg : Message) (tgs : tagStorer) (plt : platform) :
    ∃ plt1, (tagsAdd.write t msg tgs plt).Platforms.get? t.Platform = some plt1 ∧
      plt1.Users.get? msg.Author.ID = some (tagsAdd.entry t msg) := by
  refine ⟨_, GoMap.get?_set_self _ _ _, ?_⟩
  exact GoMap.get?_set_self _ _ _

/-- The confirmation branch either leaves the stored directory alone and does
not report success, or it was confirmed and has saved the directory with the
new platform holding the caller's tag. -/
theorem tagsAdd_confirm_cases (env : Env) (t : tagsAdd) (msg : Message) (tgs : tagStorer)
    (w : World) :
    ((tagsAdd.confirm env t msg tgs w).2.db = w.db ∧
      (tagsAdd.confirm env t msg tgs w).1 ≠ tagsAdd.success t) ∨
    ((tagsAdd.confirm env t msg tgs w).1 = tagsAdd.success t ∧
      (tagsAdd.confirm env t msg tgs w).2.db =
        some (tagsAdd.write t msg tgs (tagsAdd.newPlatform t)) ∧
      ∃ war, env.promptSend = some war ∧ env.received = true) := by
  unfold tagsAdd.confirm tagsAdd.success
  cases hp : env.promptSend with
  | none => left; simp
  | some war =>
    simp only []
    cases hc : env.reactionAddErr emojiConfirm with
    | some text => left; simp
    | none =>
      simp only []
      cases hd : env.reactionAddErr emojiDeny with
      | some text => left; simp
      | none =>
        simp only []
        by_cases hs : env.received = false
        · left
          rw [if_pos hs]
          simp
        · rw [if_neg hs]
          have hconf : env.received = true := by
            cases hq : env.received
            · exact absurd hq hs
            · rfl
          rcases tagsAdd_store_cases env t msg tgs (tagsAdd.newPlatform t)
              (((((w.log (Event.promptSend msg.ChannelID t.Platform)).log
                (Event.reactionAdd war.ID emojiConfirm)).log
                (Event.reactionAdd war.ID emojiDeny)).log Event.goWait).log
                (Event.ackSend msg.ChannelID t.Platform))
            with ⟨⟨text, _, h1⟩, h2⟩ | ⟨_, h1, h3⟩
          · left
            refine ⟨by simpa using h2, ?_⟩
            simp only [h1]
            intro hcon
            cases hcon
          · right
            exact ⟨h1, by simpa using h3, war, rfl, hconf⟩

/-- How the caller's platform was obtained in a successful `tags add`: it was
stored already, or it is new and the caller confirmed it. -/
theorem tagsAdd_locked_cases (env : Env) (t : tagsAdd) (msg : Message) (w : World) :
    ((tagsAdd.locked env t msg w).2.db = w.db ∧
      (tagsAdd.locked env t msg w).1 ≠ tagsAdd.success t) ∨
    ((tagsAdd.locked env t msg w).1 = tagsAdd.success t ∧
      ∃ plt, (tagsAdd.locked env t msg w).2.db =
          some (tagsAdd.write t msg (tagsAdd.loaded w) plt) ∧
        ((tagsAdd.loaded w).Platforms.get? t.Platform = some plt ∨
          ((tagsAdd.loaded w).Platforms.get? t.Platform = none ∧
            plt = tagsAdd.newPlatform t ∧
            ∃ war, env.promptSend = some war ∧ env.received = true))) := by
  unfold tagsAdd.locked DBGet tagsAdd.loaded
  cases hg : env.dbGetErr with
  | some text => left; simp [tagsAdd.success]
  | none =>
    cases hdb : w.db with
    | none =>
      simp only []
      rcases tagsAdd_confirm_cases env t msg { Platforms := [] } (w.log Event.dbGet) with
        ⟨h1, h2⟩ | ⟨h1, h2, h3⟩
      · left
        exact ⟨by rw [h1, World.log_db, hdb], h2⟩
      · right
        exact ⟨h1, _, h2, Or.inr ⟨rfl, rfl, h3⟩⟩
    | some tgs =>
      simp only []
      cases hplt : tgs.Platforms.get? t.Platform with
      | none =>
        simp only []
        rcases tagsAdd_confirm_cases env t msg tgs (w.log Event.dbGet) with
          ⟨h1, h2⟩ | ⟨h1, h2, h3⟩
        · left
          exact ⟨by rw [h1, World.log_db, hdb], h2⟩
        · right
          exact ⟨h1, _, h2, Or.inr ⟨trivial, rfl, h3⟩⟩
      | some plt =>
        simp only []
        rcases tagsAdd_store_cases env t msg tgs plt (w.log Event.dbGet) with
          ⟨⟨text, _, h1⟩, h2⟩ | ⟨_, h1, h3⟩
        · left
          refine ⟨by rw [h2, World.log_db, hdb], ?_⟩
          rw [h1]
          intro hcon
          cases hcon
        · right
          exact ⟨h1, plt, h3, Or.inl rfl⟩

/-- A call of `tags add` either leaves the stored directory alone and does not
report success, or it passed the checks with the semaphore free, reports
success and has saved the loaded directory with the caller's tag written into
the platform, which was stored already or is new and confirmed. -/
theorem tagsAdd_MsgHandle_cases (env : Env) (t : tagsAdd) (msg : Message) (w : World) :
    ((tagsAdd.MsgHandle env t msg w).2.db = w.db ∧
      (tagsAdd.MsgHandle env t msg w).1 ≠ tagsAdd.success t) ∨
    ((tagsAdd.MsgHandle env t msg w).1 = tagsAdd.success t ∧
      t.validate = none ∧ w.addSemaphore = false ∧
      ∃ plt, (tagsAdd.MsgHandle env t msg w).2.db =
          some (tagsAdd.write t msg (tagsAdd.loaded w) plt) ∧
        ((tagsAdd.loaded w).Platforms.get? t.Platform = some plt ∨
          ((tagsAdd.loaded w).Platforms.get? t.Platform = none ∧
            plt = tagsAdd.newPlatform t ∧
            ∃ war, env.promptSend = some war ∧ env.received = true))) := by
  unfold tagsAdd.MsgHandle
  cases hv : t.validate with
  | some err => left; simp [tagsAdd.success]
  | none =>
    simp only []
    cases hsem : w.addSemaphore with
    | true => left; simp [tagsAdd.success]
    | false =>
      simp only [Bool.false_eq_true, if_false]
      rcases tagsAdd_locked_cases env t msg
          (({ w with addSemaphore := true }.log (Event.tryAcquireAdd true)).log Event.dbLock)
        with ⟨h1, h2⟩ | ⟨h1, plt, h2, h3⟩
      · left
        exact ⟨by simpa using h1, h2⟩
      · right
        exact ⟨h1, trivial, trivial, plt, by simpa using h2, h3⟩

/-! ## The platforms keep their users -/

theorem World.usersNonEmpty_of_db_eq {w w1 : World} (h : w1.db = w.db)
    (hw : w.usersNonEmpty) : w1.usersNonEmpty := by
  intro tgs ht
  exact hw tgs (by rw [← h]; exact ht)

theorem World.usersNonEmpty_of_db_some {w1 : World} {tgs : tagStorer} (h : w1.db = some tgs)
    (ht : tgs.usersNonEmpty) : w1.usersNonEmpty := by
  intro tgs1 ht1
  rw [h] at ht1
  cases ht1
  exact ht

theorem DBSet_usersNonEmpty (env : Env) (tgs : tagStorer) (w : World)
    (hw : w.usersNonEmpty) (ht : tgs.usersNonEmpty) : (DBSet env tgs w).2.usersNonEmpty := by
  by_cases h : env.dbSetErr = none
  · exact World.usersNonEmpty_of_db_some (by rw [DBSet_db, if_pos h]) ht
  · exact World.usersNonEmpty_of_db_eq (by rw [DBSet_db, if_neg h]) hw

theorem tagsAdd_loaded_usersNonEmpty (w : World) (hw : w.usersNonEmpty) :
    (tagsAdd.loaded w).usersNonEmpty := by
  unfold tagsAdd.loaded
  cases h : w.db with
  | none =>
    intro e he
    cases he
  | some tgs => exact hw tgs h

theorem tagsAdd_write_usersNonEmpty (t : tagsAdd) (msg : Message) (tgs : tagStorer)
    (plt : platform) (ht : tgs.usersNonEmpty) :
    (tagsAdd.write t msg tgs plt).usersNonEmpty := by
  intro e he
  rcases GoMap.mem_set _ _ _ _ he with h | h
  · exact ht e h
  · rw [h]
    exact GoMap.len_set_pos _ _ _

theorem tagsAdd_MsgHandle_usersNonEmpty (env : Env) (t : tagsAdd) (msg : Message) (w : World)
    (hw : w.usersNonEmpty) : (tagsAdd.MsgHandle env t msg w).2.usersNonEmpty := by
  rcases tagsAdd_MsgHandle_cases env t msg w with ⟨h, _⟩ | ⟨_, _, _, plt, h, _⟩
  · exact World.usersNonEmpty_of_db_eq h hw
  · exact World.usersNonEmpty_of_db_some h
      (tagsAdd_write_usersNonEmpty t msg _ plt (tagsAdd_loaded_usersNonEmpty w hw))

theorem tagsRemove_MsgHandle_usersNonEmpty (env : Env) (t : tagsRemove) (msg : Message)
    (w : World) (hw : w.usersNonEmpty) : (tagsRemove.MsgHandle env t msg w).2.usersNonEmpty := by
  have hw0 : (w.log Event.dbLock).usersNonEmpty := World.usersNonEmpty_of_db_eq rfl hw
  unfold tagsRemove.MsgHandle
  simp only []
  apply World.usersNonEmpty_of_db_eq (World.log_db _ _)
  unfold DBGet
  cases hg : env.dbGetErr with
  | some text => exact World.usersNonEmpty_of_db_eq rfl hw
  | none =>
    cases hdb : w.db with
    | none =>
      simp only [World.log_db, hdb]
      exact World.usersNonEmpty_of_db_eq rfl hw
    | some tgs =>
      simp only [World.log_db, hdb]
      have htgs : tgs.usersNonEmpty := hw tgs hdb
      cases hplt : tgs.Platforms.get? t.Platform with
      | none => exact World.usersNonEmpty_of_db_eq rfl hw
      | some plt =>
        simp only []
        cases hu : plt.Users.get? msg.Author.ID with
        | none => exact World.usersNonEmpty_of_db_eq rfl hw
        | some utg =>
          simp only []
          by_cases hlen : (plt.Users.delete msg.Author.ID).len = 0
          · rw [if_pos hlen]
            cases hrole : plt.Role with
            | none => exact World.usersNonEmpty_of_db_eq rfl hw
            | some role =>
              simp only []
              have hnew : tagStorer.usersNonEmpty
                  { Platforms := tgs.Platforms.delete t.Platform } := by
                intro e he
                exact htgs e (GoMap.mem_delete _ _ _ he)
              have := DBSet_usersNonEmpty env { Platforms := tgs.Platforms.delete t.Platform }
                (((w.log Event.dbLock).log Event.dbGet).log
                  (Event.guildRoleDelete msg.GuildID role.ID))
                (World.usersNonEmpty_of_db_eq rfl hw) hnew
              split <;> simp_all
          · rw [if_neg hlen]
            have hnew : tagStorer.usersNonEmpty
                { Platforms := tgs.Platforms.set t.Platform
                    { plt with Users := plt.Users.delete msg.Author.ID } } := by
              intro e he
              rcases GoMap.mem_set _ _ _ _ he with h | h
              · exact htgs e h
              · rw [h]
                exact Nat.pos_of_ne_zero hlen
            have := DBSet_usersNonEmpty env
              { Platforms := tgs.Platforms.set t.Platform
                  { plt with Users := plt.Users.delete msg.Author.ID } }
              ((w.log Event.dbLock).log Event.dbGet)
              (World.usersNonEmpty_of_db_eq rfl hw) hnew
            split <;> simp_all

theorem tagsPingMe_MsgHandle_usersNonEmpty (env : Env) (t : tagsPingMe) (msg : Message)
    (w : World) (hw : w.usersNonEmpty) : (tagsPingMe.MsgHandle env t msg w).2.usersNonEmpty := by
  unfold tagsPingMe.MsgHandle
  simp only []
  apply World.usersNonEmpty_of_db_eq (World.log_db _ _)
  unfold DBGet
  cases hg : env.dbGetErr with
  | some text => exact World.usersNonEmpty_of_db_eq rfl hw
  | none =>
    cases hdb : w.db with
    | none =>
      simp only [World.log_db, hdb]
      exact World.usersNonEmpty_of_db_eq rfl hw
    | some tgs =>
      simp only [World.log_db, hdb]
      have htgs : tgs.usersNonEmpty := hw tgs hdb
      cases hplt : tgs.Platforms.get? t.Platform with
      | none => exact World.usersNonEmpty_of_db_eq rfl hw
      | some plt =>
        simp only []
        cases hu : plt.Users.get? msg.Author.ID with
        | none => exact World.usersNonEmpty_of_db_eq rfl hw
        | some utg =>
          simp only []
          have hnew : tagStorer.usersNonEmpty
              { Platforms := tgs.Platforms.set t.Platform
                  { plt with Users :=
                      plt.Users.set msg.Author.ID { utg with PingMe := t.PingMe } } } := by
            intro e he
            rcases GoMap.mem_set _ _ _ _ he with h | h
            · exact htgs e h
            · rw [h]
              exact GoMap.len_set_pos _ _ _
          have := DBSet_usersNonEmpty env _ ((w.log Event.dbLock).log Event.dbGet)
            (World.usersNonEmpty_of_db_eq rfl hw) hnew
          split <;> simp_all

theorem tagsShutup_rangePlatforms_usersNonEmpty (uid : String) (tgs : tagStorer)
    (ht : tgs.usersNonEmpty) :
    tagStorer.usersNonEmpty { Platforms := tagsShutup.rangePlatforms uid tgs.Platforms } := by
  intro e he
  simp only [tagsShutup.rangePlatforms, List.mem_map] at he
  obtain ⟨e0, he0, rfl⟩ := he
  cases hu : e0.2.Users.get? uid with
  | none => simpa [hu] using ht e0 he0
  | some utg =>
    simp only [hu]
    exact GoMap.len_set_pos _ _ _

theorem tagsShutup_MsgHandle_usersNonEmpty (env : Env) (t : tagsShutup) (msg : Message)
    (w : World) (hw : w.usersNonEmpty) : (tagsShutup.MsgHandle env t msg w).2.usersNonEmpty := by
  unfold tagsShutup.MsgHandle
  simp only []
  apply World.usersNonEmpty_of_db_eq (World.log_db _ _)
  unfold DBGet
  cases hg : env.dbGetErr with
  | some text => exact World.usersNonEmpty_of_db_eq rfl hw
  | none =>
    cases hdb : w.db with
    | none =>
      simp only [World.log_db, hdb]
      exact World.usersNonEmpty_of_db_eq rfl hw
    | some tgs =>
      simp only [World.log_db, hdb]
      have := DBSet_usersNonEmpty env _ ((w.log Event.dbLock).log Event.dbGet)
        (World.usersNonEmpty_of_db_eq rfl hw)
        (tagsShutup_rangePlatforms_usersNonEmpty msg.Author.ID tgs (hw tgs hdb))
      split <;> simp_all

theorem tagsModRemove_MsgHandle_usersNonEmpty (env : Env) (t : tagsModRemove) (msg : Message)
    (w : World) (hw : w.usersNonEmpty) :
    (tagsModRemove.MsgHandle env t msg w).2.usersNonEmpty := by
  unfold tagsModRemove.MsgHandle
  simp only []
  apply World.usersNonEmpty_of_db_eq (World.log_db _ _)
  unfold DBGet
  cases hg : env.dbGetErr with
  | some text => exact World.usersNonEmpty_of_db_eq rfl hw
  | none =>
    cases hdb : w.db with
    | none =>
      simp only [World.log_db, hdb]
      exact World.usersNonEmpty_of_db_eq rfl hw
    | some tgs =>
      simp only [World.log_db, hdb]
      cases hfind : tgs.Platforms.keys.find? (fun pname => decide (pname = t.Platform)) with
      | none => exact World.usersNonEmpty_of_db_eq rfl hw
      | some pname =>
        simp only []
        have hnew : tagStorer.usersNonEmpty { Platforms := tgs.Platforms.delete pname } := by
          intro e he
          exact hw tgs hdb e (GoMap.mem_delete _ _ _ he)
        have := DBSet_usersNonEmpty env _ ((w.log Event.dbLock).log Event.dbGet)
          (World.usersNonEmpty_of_db_eq rfl hw) hnew
        split <;> simp_all

/-! ## The claims -/

/-- C1: whenever `tags add` by a user on a platform reports success (the
platform was stored already, or it was new and the user confirmed), a following
`tags get` by the same user on the same platform, reading the stored directory,
answers with exactly the space-joined tag text just written. -/
theorem add_then_get (env envGet : Env) (t : tagsAdd) (msg : Message) (w : World)
    (hadd : (tagsAdd.MsgHandle env t msg w).1 =
      Result.send [Reply.successAdded (String.intercalate " " t.Tag) t.Platform])
    (hget : envGet.dbGetErr = none) :
    (tagsGet.MsgHandle envGet { Platform := t.Platform } msg
        (tagsAdd.MsgHandle env t msg w).2).1 =
      Result.send [Reply.yourTagIs (String.intercalate " " t.Tag) t.Platform] := by
  rcases tagsAdd_MsgHandle_cases env t msg w with ⟨_, h⟩ | ⟨_, _, _, plt, hdb, _⟩
  · exact absurd hadd h
  · obtain ⟨plt1, h1, h2⟩ := tagsAdd_write_get? t msg (tagsAdd.loaded w) plt
    unfold tagsGet.MsgHandle DBGet
    simp only [hget, hdb, h1, h2]
    rfl

/-- Witness of C1: U1 adds "main#1234" on the new platform "Game", confirms,
and then gets the tag back. -/
theorem add_then_get_witness :
    (tagsAdd.MsgHandle (exampleEnv emojiConfirm) exampleAdd exampleMsg exampleEmpty).1 =
        Result.send [Reply.successAdded "main#1234" "Game"] ∧
      (tagsGet.MsgHandle exampleEnvSilent { Platform := "Game" } exampleMsg
        (tagsAdd.MsgHandle (exampleEnv emojiConfirm) exampleAdd exampleMsg exampleEmpty).2).1 =
        Result.send [Reply.yourTagIs "main#1234" "Game"] :=
  ⟨by decide,
    add_then_get (exampleEnv emojiConfirm) exampleEnvSilent exampleAdd exampleMsg exampleEmpty
      (by decide) rfl⟩

/-- C2: if no stored platform is without users, then the same holds of the
directory stored after `tags add`, `tags remove`, `tags pingme`, `tags shutup`
and `tags modremove`, whatever their arguments and whatever the collaborators
do. -/
theorem mutations_keep_users (w : World) (hw : w.usersNonEmpty) (env : Env) (msg : Message)
    (a : tagsAdd) (r : tagsRemove) (p : tagsPingMe) (s : tagsShutup) (m : tagsModRemove) :
    (tagsAdd.MsgHandle env a msg w).2.usersNonEmpty ∧
      (tagsRemove.MsgHandle env r msg w).2.usersNonEmpty ∧
      (tagsPingMe.MsgHandle env p msg w).2.usersNonEmpty ∧
      (tagsShutup.MsgHandle env s msg w).2.usersNonEmpty ∧
      (tagsModRemove.MsgHandle env m msg w).2.usersNonEmpty :=
  ⟨tagsAdd_MsgHandle_usersNonEmpty env a msg w hw,
    tagsRemove_MsgHandle_usersNonEmpty env r msg w hw,
    tagsPingMe_MsgHandle_usersNonEmpty env p msg w hw,
    tagsShutup_MsgHandle_usersNonEmpty env s msg w hw,
    tagsModRemove_MsgHandle_usersNonEmpty env m msg w hw⟩

/-- Witness of C2: the five operations on the directory holding "Game" with U1. -/
theorem mutations_keep_users_witness :
    exampleGame.usersNonEmpty ∧
      ((tagsAdd.MsgHandle exampleEnvSilent exampleAdd exampleMsg exampleGame).2.usersNonEmpty ∧
        (tagsRemove.MsgHandle exampleEnvSilent { Platform := "Game" } exampleMsg
          exampleGame).2.usersNonEmpty ∧
        (tagsPingMe.MsgHandle exampleEnvSilent { Platform := "Game", PingMe := false }
          exampleMsg exampleGame).2.usersNonEmpty ∧
        (tagsShutup.MsgHandle exampleEnvSilent {} exampleMsg exampleGame).2.usersNonEmpty ∧
        (tagsModRemove.MsgHandle exampleEnvSilent { Platform := "Game" } exampleMsg
          exampleGame).2.usersNonEmpty) :=
  ⟨by decide,
    mutations_keep_users exampleGame (by decide) exampleEnvSilent exampleMsg exampleAdd
      { Platform := "Game" } { Platform := "Game", PingMe := false } {} { Platform := "Game" }⟩

/-- C3 on the code: "Game" has the sole user U1 and U1 resolves in neither
lookup.  One pass of `tags clean` removes U1's tag, reports that all is clean,
and stores "Game" with an empty user map: the emptiness test of line 381 ran
before the users were checked. -/
theorem clean_keeps_emptied_platform :
    (tagsClean.MsgHandle exampleEnvSilent {} exampleMsg exampleGame).1 =
        Result.send [Reply.allClean] ∧
      (tagsClean.MsgHandle exampleEnvSilent {} exampleMsg exampleGame).2.db =
        some { Platforms := [("Game", { Name := "Game", Role := none, Users := [] })] } ∧
      ¬ (tagsClean.MsgHandle exampleEnvSilent {} exampleMsg exampleGame).2.usersNonEmpty := by
  decide

/-- C4 on the code: with the same directory and the same answers of the
resolver, the second pass of `tags clean` removes the platform the first pass
left empty, so two passes do not store what one pass stores. -/
theorem clean_twice_differs :
    (tagsClean.MsgHandle exampleEnvSilent {} exampleMsg exampleGame).2.db =
        some { Platforms := [("Game", { Name := "Game", Role := none, Users := [] })] } ∧
      (tagsClean.MsgHandle exampleEnvSilent {} exampleMsg
        (tagsClean.MsgHandle exampleEnvSilent {} exampleMsg exampleGame).2).2.db =
        some { Platforms := [] } ∧
      (tagsClean.MsgHandle exampleEnvSilent {} exampleMsg
        (tagsClean.MsgHandle exampleEnvSilent {} exampleMsg exampleGame).2).2.db ≠
        (tagsClean.MsgHandle exampleEnvSilent {} exampleMsg exampleGame).2.db := by
  decide

/-- C5: the platform is not in the loaded directory (nothing stored counts as
the empty directory), the input passes the checks, the semaphore is free,
storage and transport work, and the confirmation wait ends Confirmed: the
value the command receives from the channel `reaction` at line 300 is `true`,
which only the handler's send on an affirm reaction of the requester to the
prompt (line 282) delivers.  Then
`tags add` reports success and stores exactly the loaded directory extended by
the platform under its name, with no role and the single user entry
`{UID, Username, Tag, Platform, PingMe = true}` of the caller; the lookup of
every other platform name is as before. -/
theorem add_confirmed_creates (env : Env) (t : tagsAdd) (msg : Message) (w : World)
    (war : Message)
    (hv : t.validate = none) (hsem : w.addSemaphore = false)
    (hget : env.dbGetErr = none) (hset : env.dbSetErr = none)
    (hnew : (tagsAdd.loaded w).Platforms.get? t.Platform = none)
    (hp : env.promptSend = some war)
    (hc : env.reactionAddErr emojiConfirm = none) (hd : env.reactionAddErr emojiDeny = none)
    (hconf : env.received = true) :
    (tagsAdd.MsgHandle env t msg w).1 =
        Result.send [Reply.successAdded (String.intercalate " " t.Tag) t.Platform] ∧
      (tagsAdd.MsgHandle env t msg w).2.db =
        some { Platforms := (tagsAdd.loaded w).Platforms ++
          [(t.Platform,
            { Name := t.Platform, Role := none,
              Users := [(msg.Author.ID,
                { UID := msg.Author.ID, Username := msg.Author.Username,
                  Tag := String.intercalate " " t.Tag, Platform := t.Platform,
                  PingMe := true })] })] } ∧
      ∀ q, q ≠ t.Platform →
        GoMap.get? ((tagsAdd.loaded w).Platforms ++
          [(t.Platform,
            { Name := t.Platform, Role := none,
              Users := [(msg.Author.ID,
                { UID := msg.Author.ID, Username := msg.Author.Username,
                  Tag := String.intercalate " " t.Tag, Platform := t.Platform,
                  PingMe := true })] })]) q =
          (tagsAdd.loaded w).Platforms.get? q := by
  have hwrite : tagsAdd.write t msg (tagsAdd.loaded w) (tagsAdd.newPlatform t) =
      { Platforms := (tagsAdd.loaded w).Platforms ++
          [(t.Platform,
            { Name := t.Platform, Role := none,
              Users := [(msg.Author.ID,
                { UID := msg.Author.ID, Username := msg.Author.Username,
                  Tag := String.intercalate " " t.Tag, Platform := t.Platform,
                  PingMe := true })] })] } := by
    unfold tagsAdd.write
    simp only [GoMap.set_of_get?_none _ _ _ hnew]
    rfl
  have hsig : env.received = true := hconf
  refine ⟨?_, ?_, fun q hq => GoMap.get?_append_ne _ _ _ _ (Ne.symm hq)⟩
  · unfold tagsAdd.MsgHandle
    simp only [hv, hsem, Bool.false_eq_true, if_false]
    unfold tagsAdd.locked DBGet tagsAdd.loaded at *
    cases hdb : w.db with
    | none =>
      simp only [hget, World.log_db, hdb]
      unfold tagsAdd.confirm
      simp only [hp, hc, hd, hsig, Bool.true_eq_false, if_false]
      unfold tagsAdd.store DBSet
      simp only [hset]
    | some tgs =>
      simp only [hdb] at hnew
      simp only [hget, World.log_db, hdb, hnew]
      unfold tagsAdd.confirm
      simp only [hp, hc, hd, hsig, Bool.true_eq_false, if_false]
      unfold tagsAdd.store DBSet
      simp only [hset]
  · rw [← hwrite]
    unfold tagsAdd.MsgHandle
    simp only [hv, hsem, Bool.false_eq_true, if_false]
    unfold tagsAdd.locked DBGet
    cases hdb : w.db with
    | none =>
      simp only [hget, World.log_db, hdb]
      unfold tagsAdd.confirm
      simp only [hp, hc, hd, hsig, Bool.true_eq_false, if_false]
      unfold tagsAdd.store DBSet
      simp only [hset, World.log_db]
      simp [tagsAdd.loaded, hdb]
    | some tgs =>
      have hnew1 : tgs.Platforms.get? t.Platform = none := by
        simpa [tagsAdd.loaded, hdb] using hnew
      simp only [hget, World.log_db, hdb, hnew1]
      unfold tagsAdd.confirm
      simp only [hp, hc, hd, hsig, Bool.true_eq_false, if_false]
      unfold tagsAdd.store DBSet
      simp only [hset, World.log_db]
      simp [tagsAdd.loaded, hdb]

/-- Witness of C5: nothing stored, U1 adds "main#1234" on "Game" and affirms
the prompt; the directory then holds "Game" with the one tag of U1. -/
theorem add_confirmed_creates_witness :
    exampleAdd.validate = none ∧
      (exampleEnv emojiConfirm).received = true ∧
      (tagsAdd.MsgHandle (exampleEnv emojiConfirm) exampleAdd exampleMsg exampleEmpty).2.db =
        some { Platforms :=
          [("Game", { Name := "Game", Role := none, Users := [("U1", exampleTag)] })] } :=
  ⟨by decide, by decide,
    (add_confirmed_creates (exampleEnv emojiConfirm) exampleAdd exampleMsg exampleEmpty
      examplePrompt (by decide) rfl rfl rfl (by decide) rfl rfl rfl (by decide)).2.1⟩

/-- C6: the platform is not in the loaded directory.  (a) If the call reaches
the confirmation wait and the wait ends Denied or TimedOut, that is, the value
the command receives from the channel `reaction` at line 300 is `false` (sent
by the handler on a deny reaction, line 285, or by the timer, line 293), then
`tags add` answers "Aborting platform creation." and the world after it
differs from the world before only by the trace of its calls, which has no
`DBSet`: the stored directory is unchanged.  (b) Whatever happens, if the
platform is in the directory stored afterwards, then the prompt was sent and
the command received `true`: the wait ended Confirmed. -/
theorem add_unconfirmed_aborts (env : Env) (t : tagsAdd) (msg : Message) (w : World)
    (hnew : (tagsAdd.loaded w).Platforms.get? t.Platform = none) :
    (∀ war, t.validate = none → w.addSemaphore = false → env.dbGetErr = none →
      env.promptSend = some war → env.reactionAddErr emojiConfirm = none →
      env.reactionAddErr emojiDeny = none →
      env.received = false →
      tagsAdd.MsgHandle env t msg w =
        (Result.send [Reply.abortingPlatformCreation],
          { w with trace := w.trace ++ tagsAdd.abortTrace t msg war }) ∧
      Event.dbSet ∉ tagsAdd.abortTrace t msg war) ∧
    (∀ tgs plt, (tagsAdd.MsgHandle env t msg w).2.db = some tgs →
      tgs.Platforms.get? t.Platform = some plt →
      ∃ war, env.promptSend = some war ∧ env.received = true) := by
  constructor
  · intro war hv hsem hget hp hc hd hout
    have hsig : env.received = false := hout
    refine ⟨?_, by simp [tagsAdd.abortTrace]⟩
    unfold tagsAdd.MsgHandle
    simp only [hv, hsem, Bool.false_eq_true, if_false]
    unfold tagsAdd.locked DBGet
    cases hdb : w.db with
    | none =>
      simp only [hget, World.log_db, hdb]
      unfold tagsAdd.confirm
      simp only [hp, hc, hd, hsig, if_true]
      cases w
      simp_all [World.log, tagsAdd.abortTrace]
    | some tgs =>
      have hnew1 : tgs.Platforms.get? t.Platform = none := by
        simpa [tagsAdd.loaded, hdb] using hnew
      simp only [hget, World.log_db, hdb, hnew1]
      unfold tagsAdd.confirm
      simp only [hp, hc, hd, hsig, if_true]
      cases w
      simp_all [World.log, tagsAdd.abortTrace]
  · intro tgs plt hdb hplt
    rcases tagsAdd_MsgHandle_cases env t msg w with ⟨h, _⟩ | ⟨_, _, _, plt1, _, h⟩
    · rw [h] at hdb
      simp only [tagsAdd.loaded, hdb] at hnew
      rw [hnew] at hplt
      cases hplt
    · rcases h with h | ⟨_, _, h⟩
      · rw [hnew] at h
        cases h
      · exact h

/-- Witness of C6: nothing stored, U1 adds on "Game" and reacts with the deny
emoji; the answer is the abort message and nothing is stored. -/
theorem add_unconfirmed_aborts_witness :
    (tagsAdd.loaded exampleEmpty).Platforms.get? exampleAdd.Platform = none ∧
      (exampleEnv emojiDeny).received = false ∧
      tagsAdd.MsgHandle (exampleEnv emojiDeny) exampleAdd exampleMsg exampleEmpty =
        (Result.send [Reply.abortingPlatformCreation],
          { exampleEmpty with
            trace := exampleEmpty.trace ++
              tagsAdd.abortTrace exampleAdd exampleMsg examplePrompt }) :=
  ⟨by decide, by decide,
    ((add_unconfirmed_aborts (exampleEnv emojiDeny) exampleAdd exampleMsg exampleEmpty
      (by decide)).1 examplePrompt (by decide) rfl rfl rfl rfl rfl
      (by decide)).1⟩

/-- C7 as stated fails on the code: a tag of 33 letters "é" has at most 64
characters and "Game" at most 20, yet `tags add` rejects it with
`ErrTagTooLong`, because `len` counts the 66 bytes; and with no tag words the
joined text is empty, yet the call is rejected with "please provide a tag". -/
theorem validation_characters_counterexample :
    ((String.intercalate " " exampleAddAccents.Tag).length ≤ 64 ∧
        exampleAddAccents.Platform.length ≤ 20 ∧
        (tagsAdd.MsgHandle exampleEnvSilent exampleAddAccents exampleMsg exampleEmpty).1 =
          Result.error Err.ErrTagTooLong) ∧
      ((String.intercalate " " exampleAddNoTag.Tag).length ≤ 64 ∧
        exampleAddNoTag.Platform.length ≤ 20 ∧
        (tagsAdd.MsgHandle exampleEnvSilent exampleAddNoTag exampleMsg exampleEmpty).1 =
          Result.error Err.provideTag) := by
  decide

/-- C7 as amended: `tags add` passes its checks exactly when there is at least
one tag word, the joined tag text has at most 64 bytes and the platform name
has at most 20 bytes.  Otherwise the call ends with the error of the first
failed check ("please provide a tag", `ErrTagTooLong`, `ErrPlatTooLong`) and
the world, with its directory, both semaphores and the trace of calls to locks
and storage, is exactly as before, also when the add semaphore is held. -/
theorem validation_before_gate (env : Env) (t : tagsAdd) (msg : Message) (w : World) :
    (t.validate = none ↔
      (t.Tag ≠ [] ∧ (String.intercalate " " t.Tag).utf8ByteSize ≤ 64 ∧
        t.Platform.utf8ByteSize ≤ 20)) ∧
    (t.Tag = [] → tagsAdd.MsgHandle env t msg w = (Result.error Err.provideTag, w)) ∧
    (t.Tag ≠ [] → 64 < (String.intercalate " " t.Tag).utf8ByteSize →
      tagsAdd.MsgHandle env t msg w = (Result.error Err.ErrTagTooLong, w)) ∧
    (t.Tag ≠ [] → (String.intercalate " " t.Tag).utf8ByteSize ≤ 64 →
      20 < t.Platform.utf8ByteSize →
      tagsAdd.MsgHandle env t msg w = (Result.error Err.ErrPlatTooLong, w)) := by
  have hlen : t.Tag.length = 0 ↔ t.Tag = [] := List.length_eq_zero
  refine ⟨?_, ?_, ?_, ?_⟩
  · unfold tagsAdd.validate tagLimit platLimit
    by_cases h0 : t.Tag = []
    · simp [h0]
    · by_cases h1 : (String.intercalate " " t.Tag).utf8ByteSize > 64
      · have : ¬ (String.intercalate " " t.Tag).utf8ByteSize ≤ 64 := by omega
        simp [h0, h1, this]
      · by_cases h2 : t.Platform.utf8ByteSize > 20
        · have : ¬ t.Platform.utf8ByteSize ≤ 20 := by omega
          simp [h0, h1, h2, this]
        · have h3 : (String.intercalate " " t.Tag).utf8ByteSize ≤ 64 := by omega
          have h4 : t.Platform.utf8ByteSize ≤ 20 := by omega
          simp [h0, h1, h2, h3, h4]
  · intro h0
    unfold tagsAdd.MsgHandle tagsAdd.validate
    simp [h0]
  · intro h0 h1
    unfold tagsAdd.MsgHandle tagsAdd.validate tagLimit
    simp [h0, h1]
  · intro h0 h1 h2
    have h3 : ¬ (String.intercalate " " t.Tag).utf8ByteSize > 64 := by omega
    unfold tagsAdd.MsgHandle tagsAdd.validate tagLimit platLimit
    simp [h0, h3, h2]

/-- Witness of C7 as amended: a platform name of 21 bytes is rejected with
`ErrPlatTooLong` while the add semaphore is held, and the world is untouched. -/
theorem validation_before_gate_witness :
    exampleAddLongPlatform.Tag ≠ [] ∧
      (String.intercalate " " exampleAddLongPlatform.Tag).utf8ByteSize ≤ 64 ∧
      20 < exampleAddLongPlatform.Platform.utf8ByteSize ∧
      exampleBusy.addSemaphore = true ∧
      tagsAdd.MsgHandle exampleEnvSilent exampleAddLongPlatform exampleMsg exampleBusy =
        (Result.error Err.ErrPlatTooLong, exampleBusy) :=
  ⟨by decide, by decide, by decide, rfl,
    (validation_before_gate exampleEnvSilent exampleAddLongPlatform exampleMsg
      exampleBusy).2.2.2 (by decide) (by decide) (by decide)⟩

/-- C8 on the code: "Game" was created by `tags add`, so its role pointer is
nil, and U1 is its only user.  `tags remove` by U1 deletes the tag in memory,
finds the user map empty and reads `plt.Role.ID` through the nil pointer (line
792): the call panics before `DBSet`, and the stored directory still holds
"Game" with U1. -/
theorem remove_last_user_panics :
    tagsRemove.MsgHandle exampleEnvSilent { Platform := "Game" } exampleMsg exampleGame =
      (Result.panic,
        { exampleGame with trace := [Event.dbLock, Event.dbGet, Event.dbUnlock] }) := by
  decide

/-- With valid input and the add semaphore held, `tags add` hands back the
reply "Please don't add anything while I'm waiting!" with a nil error; with the
clean semaphore held, `tags clean` fails with `ErrCleanSpam`.  In both cases
the only call made is the failed `TryAcquire`. -/
theorem slot_held_answers (env : Env) (t : tagsAdd) (c : tagsClean) (msg : Message)
    (wa wc : World) (hv : t.validate = none) (ha : wa.addSemaphore = true)
    (hc : wc.cleanSemaphore = true) :
    tagsAdd.MsgHandle env t msg wa =
        (Result.send [Reply.pleaseDontAdd], wa.log (Event.tryAcquireAdd false)) ∧
      tagsClean.MsgHandle env c msg wc =
        (Result.error Err.ErrCleanSpam, wc.log (Event.tryAcquireClean false)) := by
  constructor
  · unfold tagsAdd.MsgHandle
    simp [hv, ha]
  · unfold tagsClean.MsgHandle
    simp [hc]

/-- C9 on the code: "Game" is stored and both semaphores are held.  `tags add`
with valid input makes the failed `TryAcquire` and nothing else, leaves the
directory as it is, and hands back `(send, nil)` with the text "Please don't
add anything while I'm waiting!" (line 222): its result is no error value at
all, and in particular not `ErrAddSpam`, the error lines 58-59 declare for this
case.  `tags clean` in the same world fails with the error `ErrCleanSpam`. -/
theorem add_busy_is_no_error :
    exampleAdd.validate = none ∧ exampleBusy.addSemaphore = true ∧
      tagsAdd.MsgHandle (exampleEnv emojiConfirm) exampleAdd exampleMsg exampleBusy =
        (Result.send [Reply.pleaseDontAdd], exampleBusy.log (Event.tryAcquireAdd false)) ∧
      (∀ err, (tagsAdd.MsgHandle (exampleEnv emojiConfirm) exampleAdd exampleMsg
        exampleBusy).1 ≠ Result.error err) ∧
      (tagsAdd.MsgHandle (exampleEnv emojiConfirm) exampleAdd exampleMsg exampleBusy).1 ≠
        Result.error Err.ErrAddSpam ∧
      tagsClean.MsgHandle (exampleEnv emojiConfirm) {} exampleMsg exampleBusy =
        (Result.error Err.ErrCleanSpam, exampleBusy.log (Event.tryAcquireClean false)) := by
  have h := slot_held_answers (exampleEnv emojiConfirm) exampleAdd {} exampleMsg exampleBusy
    exampleBusy (by decide) rfl rfl
  refine ⟨by decide, rfl, h.1, ?_, ?_, h.2⟩
  · intro err hcon
    rw [h.1] at hcon
    cases hcon
  · intro hcon
    rw [h.1] at hcon
    cases hcon

/-- C10: for every call of `tags add` and of `tags clean`, whatever the input
and the collaborators do: a semaphore free on entry is free on return; a
semaphore held on entry is still held on return, and the call made no
`Release`: the world is as before (a failed check of `tags add`) or differs
only by the trace entry of the failed `TryAcquire`. -/
theorem slot_discipline (env : Env) (t : tagsAdd) (c : tagsClean) (msg : Message)
    (w : World) :
    (w.addSemaphore = false → (tagsAdd.MsgHandle env t msg w).2.addSemaphore = false) ∧
    (w.addSemaphore = true →
      (tagsAdd.MsgHandle env t msg w).2.addSemaphore = true ∧
        ((tagsAdd.MsgHandle env t msg w).2 = w ∨
          (tagsAdd.MsgHandle env t msg w).2 = w.log (Event.tryAcquireAdd false))) ∧
    (w.cleanSemaphore = false → (tagsClean.MsgHandle env c msg w).2.cleanSemaphore = false) ∧
    (w.cleanSemaphore = true →
      (tagsClean.MsgHandle env c msg w).2.cleanSemaphore = true ∧
        (tagsClean.MsgHandle env c msg w).2 = w.log (Event.tryAcquireClean false)) := by
  refine ⟨?_, ?_, ?_, ?_⟩
  · intro h
    unfold tagsAdd.MsgHandle
    cases hv : t.validate with
    | some err => simpa using h
    | none => simp [h]
  · intro h
    unfold tagsAdd.MsgHandle
    cases hv : t.validate with
    | some err => exact ⟨h, Or.inl rfl⟩
    | none => simp [h]
  · intro h
    unfold tagsClean.MsgHandle
    simp [h]
  · intro h
    unfold tagsClean.MsgHandle
    simp [h]

/-- Witness of C10: a confirmed `tags add` and a `tags clean` with both
semaphores free, and the same calls with both semaphores held. -/
theorem slot_discipline_witness :
    (exampleEmpty.addSemaphore = false ∧
        (tagsAdd.MsgHandle (exampleEnv emojiConfirm) exampleAdd exampleMsg
          exampleEmpty).2.addSemaphore = false) ∧
      (exampleBusy.cleanSemaphore = true ∧
        (tagsClean.MsgHandle (exampleEnv emojiConfirm) {} exampleMsg
          exampleBusy).2.cleanSemaphore = true) :=
  ⟨⟨rfl, (slot_discipline (exampleEnv emojiConfirm) exampleAdd {} exampleMsg
      exampleEmpty).1 rfl⟩,
    ⟨rfl, ((slot_discipline (exampleEnv emojiConfirm) exampleAdd {} exampleMsg
      exampleBusy).2.2.2 rfl).1⟩⟩

/-! ## tags clean: what a pass keeps -/

theorem resolveMember_fst (env : Env) (guildID uid : String) (w : World) :
    (resolveMember env guildID uid w).1 = env.memberName guildID uid := by
  unfold resolveMember Env.memberName
  cases env.StateMember guildID uid <;> rfl

/-- The user loop keeps the entries whose key resolves, with every field but
the user name as it was, provided the cache agrees with the lookup; the cache
it leaves agrees with the lookup too. -/
theorem tagsClean_rangeUsers_kept (env : Env) (guildID : String) :
    ∀ (users : GoMap tag) (checkMap : GoMap Bool) (w : World),
      (∀ uid res, checkMap.get? uid = some res →
        res = (env.memberName guildID uid).isSome) →
      ((tagsClean.rangeUsers env guildID users checkMap w).1.map
          (fun u => (u.1, u.2.kept)) =
        (tagsClean.survivors env guildID users).map (fun u => (u.1, u.2.kept))) ∧
      (∀ uid res, (tagsClean.rangeUsers env guildID users checkMap w).2.1.get? uid = some res →
        res = (env.memberName guildID uid).isSome) := by
  intro users
  induction users with
  | nil =>
    intro checkMap w hcm
    exact ⟨rfl, hcm⟩
  | cons e rest ih =>
    obtain ⟨uid, utg⟩ := e
    intro checkMap w hcm
    simp only [tagsClean.rangeUsers]
    cases hget : checkMap.get? uid with
    | some res =>
      have hres := hcm uid res hget
      obtain ⟨h1, h2⟩ := ih checkMap w hcm
      simp only []
      cases res with
      | true =>
        have hsome : (env.memberName guildID uid).isSome = true := hres.symm
        simp only [if_true]
        refine ⟨?_, h2⟩
        simp only [tagsClean.survivors, List.filter, hsome, List.map_cons] at h1 ⊢
        rw [h1]
      | false =>
        have hsome : (env.memberName guildID uid).isSome = false := hres.symm
        simp only [Bool.false_eq_true, if_false]
        refine ⟨?_, h2⟩
        simp only [tagsClean.survivors, List.filter, hsome] at h1 ⊢
        exact h1
    | none =>
      simp only []
      have hfst := resolveMember_fst env guildID uid w
      cases hres : resolveMember env guildID uid w with
      | mk name w1 =>
        rw [hres] at hfst
        simp only at hfst
        cases name with
        | none =>
          simp only []
          have hcm1 : ∀ uid1 res, (checkMap.set uid false).get? uid1 = some res →
              res = (env.memberName guildID uid1).isSome := by
            intro uid1 res h
            by_cases hu : uid = uid1
            · subst hu
              rw [GoMap.get?_set_self] at h
              cases h
              rw [← hfst]
              rfl
            · rw [GoMap.get?_set_ne _ _ _ _ hu] at h
              exact hcm uid1 res h
          obtain ⟨h1, h2⟩ := ih (checkMap.set uid false) w1 hcm1
          refine ⟨?_, h2⟩
          have hsome : (env.memberName guildID uid).isSome = false := by
            rw [← hfst]; rfl
          simp only [tagsClean.survivors, List.filter, hsome] at h1 ⊢
          exact h1
        | some nm =>
          simp only []
          have hcm1 : ∀ uid1 res, (checkMap.set uid true).get? uid1 = some res →
              res = (env.memberName guildID uid1).isSome := by
            intro uid1 res h
            by_cases hu : uid = uid1
            · subst hu
              rw [GoMap.get?_set_self] at h
              cases h
              rw [← hfst]
              rfl
            · rw [GoMap.get?_set_ne _ _ _ _ hu] at h
              exact hcm uid1 res h
          obtain ⟨h1, h2⟩ := ih (checkMap.set uid true) w1 hcm1
          refine ⟨?_, h2⟩
          have hsome : (env.memberName guildID uid).isSome = true := by
            rw [← hfst]; rfl
          simp only [tagsClean.survivors, List.filter, hsome, List.map_cons] at h1 ⊢
          rw [h1]
          rfl

/-- The platform loop keeps the platforms with a name and with users, each with
its key, name and role, and with the entries the user loop keeps. -/
theorem tagsClean_rangePlatforms_kept (env : Env) (guildID : String) :
    ∀ (plats : GoMap platform) (checkMap : GoMap Bool) (w : World),
      (∀ uid res, checkMap.get? uid = some res →
        res = (env.memberName guildID uid).isSome) →
      ((tagsClean.rangePlatforms env guildID plats checkMap w).1.map
          (fun e => (e.1, e.2.Name, e.2.Role, e.2.Users.map (fun u => (u.1, u.2.kept)))) =
        (tagsClean.visited plats).map
          (fun e => (e.1, e.2.Name, e.2.Role,
            (tagsClean.survivors env guildID e.2.Users).map (fun u => (u.1, u.2.kept))))) ∧
      (∀ uid res,
        (tagsClean.rangePlatforms env guildID plats checkMap w).2.1.get? uid = some res →
        res = (env.memberName guildID uid).isSome) := by
  intro plats
  induction plats with
  | nil =>
    intro checkMap w hcm
    exact ⟨rfl, hcm⟩
  | cons e rest ih =>
    obtain ⟨pname, plt⟩ := e
    intro checkMap w hcm
    simp only [tagsClean.rangePlatforms]
    by_cases hskip : plt.Users.len = 0 ∨ plt.Name.utf8ByteSize = 0
    · rw [if_pos hskip]
      obtain ⟨h1, h2⟩ := ih checkMap w hcm
      refine ⟨?_, h2⟩
      rw [h1]
      simp [tagsClean.visited, List.filter, hskip]
    · rw [if_neg hskip]
      obtain ⟨hu1, hu2⟩ := tagsClean_rangeUsers_kept env guildID plt.Users checkMap w hcm
      cases hru : tagsClean.rangeUsers env guildID plt.Users checkMap w with
      | mk users rest1 =>
        obtain ⟨checkMap1, w1⟩ := rest1
        rw [hru] at hu1 hu2
        simp only at hu1 hu2
        obtain ⟨h1, h2⟩ := ih checkMap1 w1 hu2
        simp only []
        refine ⟨?_, h2⟩
        simp only [List.map_cons, h1, hu1]
        simp [tagsClean.visited, List.filter, hskip]

/-! ## tags clean: the member lookups of one pass -/

theorem resolverCalls_append (a b : List Event) :
    resolverCalls (a ++ b) = resolverCalls a ++ resolverCalls b := by
  induction a with
  | nil => rfl
  | cons e a ih => cases e <;> simp [resolverCalls, ih]

theorem resolveMember_trace (env : Env) (guildID uid : String) (w : World) :
    ∃ evs, (resolveMember env guildID uid w).2.trace = w.trace ++ evs ∧
      resolverCalls evs = [uid] := by
  unfold resolveMember
  cases env.StateMember guildID uid with
  | some name => exact ⟨[Event.stateMember guildID uid], rfl, rfl⟩
  | none =>
    exact ⟨[Event.stateMember guildID uid, Event.guildMember guildID uid],
      by simp [World.log], rfl⟩

/-- The lookups of the user loop: no user id twice, none that the cache knew,
each for a key of the map, and each known to the cache afterwards. -/
theorem tagsClean_rangeUsers_calls (env : Env) (guildID : String) :
    ∀ (users : GoMap tag) (checkMap : GoMap Bool) (w : World),
      ∃ evs, (tagsClean.rangeUsers env guildID users checkMap w).2.2.trace = w.trace ++ evs ∧
        (resolverCalls evs).Nodup ∧
        (∀ u ∈ resolverCalls evs, checkMap.get? u = none ∧ u ∈ users.keys) ∧
        (∀ u, (checkMap.get? u ≠ none ∨ u ∈ resolverCalls evs) →
          (tagsClean.rangeUsers env guildID users checkMap w).2.1.get? u ≠ none) := by
  intro users
  induction users with
  | nil =>
    intro checkMap w
    refine ⟨[], by simp [tagsClean.rangeUsers], by simp [resolverCalls], ?_, ?_⟩
    · intro u hu
      simp [resolverCalls] at hu
    · intro u hu
      rcases hu with hu | hu
      · exact hu
      · simp [resolverCalls] at hu
  | cons e rest ih =>
    obtain ⟨uid, utg⟩ := e
    intro checkMap w
    simp only [tagsClean.rangeUsers]
    cases hget : checkMap.get? uid with
    | some res =>
      obtain ⟨evs, h1, h2, h3, h4⟩ := ih checkMap w
      refine ⟨evs, ?_, h2, ?_, ?_⟩
      · cases res <;> simpa using h1
      · intro u hu
        refine ⟨(h3 u hu).1, ?_⟩
        simp only [GoMap.keys, List.map_cons, List.mem_cons]
        exact Or.inr (h3 u hu).2
      · intro u hu
        cases res <;> simpa using h4 u hu
    | none =>
      simp only []
      obtain ⟨evs0, ht0, hc0⟩ := resolveMember_trace env guildID uid w
      cases hres : resolveMember env guildID uid w with
      | mk name w1 =>
        rw [hres] at ht0
        simp only at ht0
        have key : ∀ b : Bool,
            ∃ evs, (tagsClean.rangeUsers env guildID rest (checkMap.set uid b) w1).2.2.trace =
                w.trace ++ evs ∧
              (resolverCalls evs).Nodup ∧
              (∀ u ∈ resolverCalls evs, checkMap.get? u = none ∧
                u ∈ GoMap.keys ((uid, utg) :: rest)) ∧
              (∀ u, (checkMap.get? u ≠ none ∨ u ∈ resolverCalls evs) →
                (tagsClean.rangeUsers env guildID rest (checkMap.set uid b) w1).2.1.get? u ≠
                  none) := by
          intro b
          obtain ⟨evs1, h1, h2, h3, h4⟩ := ih (checkMap.set uid b) w1
          have hnot : uid ∉ resolverCalls evs1 := by
            intro hin
            have := (h3 uid hin).1
            rw [GoMap.get?_set_self] at this
            cases this
          refine ⟨evs0 ++ evs1, ?_, ?_, ?_, ?_⟩
          · rw [h1, ht0, List.append_assoc]
          · rw [resolverCalls_append, hc0]
            exact List.nodup_cons.mpr ⟨hnot, h2⟩
          · intro u hu
            rw [resolverCalls_append, hc0] at hu
            simp only [List.singleton_append, List.mem_cons] at hu
            rcases hu with hu | hu
            · subst hu
              exact ⟨hget, by simp [GoMap.keys]⟩
            · have h5 := h3 u hu
              have hne : uid ≠ u := by
                intro heq
                subst heq
                exact hnot hu
              refine ⟨?_, ?_⟩
              · rw [← GoMap.get?_set_ne checkMap uid u b hne]
                exact h5.1
              · simp only [GoMap.keys, List.map_cons, List.mem_cons]
                exact Or.inr h5.2
          · intro u hu
            apply h4 u
            rw [resolverCalls_append, hc0] at hu
            simp only [List.singleton_append, List.mem_cons] at hu
            by_cases heq : uid = u
            · subst heq
              left
              rw [GoMap.get?_set_self]
              simp
            · rcases hu with hu | hu | hu
              · left
                rw [GoMap.get?_set_ne checkMap uid u b heq]
                exact hu
              · exact absurd hu.symm heq
              · exact Or.inr hu
        cases name with
        | none => exact key false
        | some nm => exact key true

/-- The lookups of the platform loop: no user id twice, none that the cache
knew, each for a key of some user map, and each known to the cache afterwards. -/
theorem tagsClean_rangePlatforms_calls (env : Env) (guildID : String) :
    ∀ (plats : GoMap platform) (checkMap : GoMap Bool) (w : World),
      ∃ evs,
        (tagsClean.rangePlatforms env guildID plats checkMap w).2.2.trace = w.trace ++ evs ∧
        (resolverCalls evs).Nodup ∧
        (∀ u ∈ resolverCalls evs, checkMap.get? u = none ∧ u ∈ owners plats) ∧
        (∀ u, (checkMap.get? u ≠ none ∨ u ∈ resolverCalls evs) →
          (tagsClean.rangePlatforms env guildID plats checkMap w).2.1.get? u ≠ none) := by
  intro plats
  induction plats with
  | nil =>
    intro checkMap w
    refine ⟨[], by simp [tagsClean.rangePlatforms], by simp [resolverCalls], ?_, ?_⟩
    · intro u hu
      simp [resolverCalls] at hu
    · intro u hu
      rcases hu with hu | hu
      · exact hu
      · simp [resolverCalls] at hu
  | cons e rest ih =>
    obtain ⟨pname, plt⟩ := e
    intro checkMap w
    simp only [tagsClean.rangePlatforms]
    by_cases hskip : plt.Users.len = 0 ∨ plt.Name.utf8ByteSize = 0
    · rw [if_pos hskip]
      obtain ⟨evs, h1, h2, h3, h4⟩ := ih checkMap w
      refine ⟨evs, h1, h2, ?_, h4⟩
      intro u hu
      refine ⟨(h3 u hu).1, ?_⟩
      simp only [owners, List.mem_append]
      exact Or.inr (h3 u hu).2
    · rw [if_neg hskip]
      obtain ⟨evs0, u1, u2, u3, u4⟩ :=
        tagsClean_rangeUsers_calls env guildID plt.Users checkMap w
      cases hru : tagsClean.rangeUsers env guildID plt.Users checkMap w with
      | mk users rest1 =>
        obtain ⟨checkMap1, w1⟩ := rest1
        rw [hru] at u1 u4
        simp only at u1 u4
        obtain ⟨evs1, h1, h2, h3, h4⟩ := ih checkMap1 w1
        simp only []
        refine ⟨evs0 ++ evs1, ?_, ?_, ?_, ?_⟩
        · rw [h1, u1, List.append_assoc]
        · rw [resolverCalls_append]
          refine List.Nodup.append u2 h2 ?_
          intro u hu0 hu1
          exact u4 u (Or.inr hu0) (h3 u hu1).1
        · intro u hu
          rw [resolverCalls_append, List.mem_append] at hu
          simp only [owners, List.mem_append]
          rcases hu with hu | hu
          · exact ⟨(u3 u hu).1, Or.inl (u3 u hu).2⟩
          · refine ⟨?_, Or.inr (h3 u hu).2⟩
            by_contra hcon
            exact u4 u (Or.inl hcon) (h3 u hu).1
        · intro u hu
          apply h4 u
          rw [resolverCalls_append, List.mem_append] at hu
          rcases hu with hu | hu | hu
          · exact Or.inl (u4 u (Or.inl hu))
          · exact Or.inl (u4 u (Or.inr hu))
          · exact Or.inr hu

theorem DBSet_trace (env : Env) (tgs : tagStorer) (w : World) :
    (DBSet env tgs w).2.trace = w.trace ++ [Event.dbSet] := by
  unfold DBSet
  cases env.dbSetErr <;> simp

/-- The lookups of one call of `tags clean`: no user id twice, and each a user
id of the stored directory. -/
theorem tagsClean_MsgHandle_calls (env : Env) (c : tagsClean) (msg : Message) (w : World) :
    ∃ calls, resolverCalls (tagsClean.MsgHandle env c msg w).2.trace =
        resolverCalls w.trace ++ calls ∧
      calls.Nodup ∧
      ∀ u ∈ calls, ∃ tgs, w.db = some tgs ∧ u ∈ owners tgs.Platforms := by
  unfold tagsClean.MsgHandle
  cases hsem : w.cleanSemaphore with
  | true =>
    refine ⟨[], ?_, List.nodup_nil, ?_⟩
    · simp [resolverCalls_append, resolverCalls]
    · intro u hu
      cases hu
  | false =>
    simp only [Bool.false_eq_true, if_false]
    unfold tagsClean.locked DBGet
    cases hg : env.dbGetErr with
    | some text =>
      refine ⟨[], ?_, List.nodup_nil, ?_⟩
      · simp [resolverCalls_append, resolverCalls]
      · intro u hu
        cases hu
    | none =>
      cases hdb : w.db with
      | none =>
        refine ⟨[], ?_, List.nodup_nil, ?_⟩
        · simp [hdb, resolverCalls_append, resolverCalls]
        · intro u hu
          cases hu
      | some tgs =>
        simp only [World.log_db, hdb]
        obtain ⟨evs, h1, h2, h3, _⟩ := tagsClean_rangePlatforms_calls env msg.GuildID
          tgs.Platforms []
          ((({ w with cleanSemaphore := true }.log (Event.tryAcquireClean true)).log
            Event.dbLock).log Event.dbGet)
        refine ⟨resolverCalls evs, ?_, h2, ?_⟩
        · have hfin : ∀ rw : Result × World,
              rw.2.trace = (w.trace ++ [Event.tryAcquireClean true, Event.dbLock,
                Event.dbGet]) ++ evs ++ [Event.dbSet] →
              resolverCalls (({ rw.2.log Event.dbUnlock with cleanSemaphore := false }).log
                Event.releaseClean).trace = resolverCalls w.trace ++ resolverCalls evs := by
            intro rw hrw
            simp [World.log, hrw, resolverCalls_append, resolverCalls]
          apply hfin
          have hset := DBSet_trace env
            { Platforms := (tagsClean.rangePlatforms env msg.GuildID tgs.Platforms []
              ((({ w with cleanSemaphore := true }.log (Event.tryAcquireClean true)).log
                Event.dbLock).log Event.dbGet)).1 }
            (tagsClean.rangePlatforms env msg.GuildID tgs.Platforms []
              ((({ w with cleanSemaphore := true }.log (Event.tryAcquireClean true)).log
                Event.dbLock).log Event.dbGet)).2.2
          rw [h1] at hset
          split <;> simp_all [World.log]
        · intro u hu
          exact ⟨tgs, rfl, (h3 u hu).2⟩

/-! ## The claims on cleanup, listing, confirmation and the daily clean -/

/-- C11: the semaphore is free, storage works and a directory is stored.  After
`tags clean` the stored directory holds, in their order, exactly the platforms
that had a name and users, each under its key with its name and role, and each
with exactly those of its entries whose key the member lookup resolves, in
their order, with UID, tag text, platform and ping flag as before: the entries
of an owner the lookup fails on are gone, no entry of a resolvable owner is. -/
theorem clean_keeps_resolvable (env : Env) (c : tagsClean) (msg : Message) (w : World)
    (tgs : tagStorer) (hsem : w.cleanSemaphore = false) (hget : env.dbGetErr = none)
    (hset : env.dbSetErr = none) (hdb : w.db = some tgs) :
    (tagsClean.MsgHandle env c msg w).1 = Result.send [Reply.allClean] ∧
    ∃ plats, (tagsClean.MsgHandle env c msg w).2.db = some { Platforms := plats } ∧
      plats.map
          (fun e => (e.1, e.2.Name, e.2.Role, e.2.Users.map (fun u => (u.1, u.2.kept)))) =
        (tagsClean.visited tgs.Platforms).map
          (fun e => (e.1, e.2.Name, e.2.Role,
            (tagsClean.survivors env msg.GuildID e.2.Users).map
              (fun u => (u.1, u.2.kept)))) := by
  have hkept := fun w0 : World =>
    (tagsClean_rangePlatforms_kept env msg.GuildID tgs.Platforms [] w0
      (by intro uid res h; simp [GoMap.get?] at h)).1
  unfold tagsClean.MsgHandle
  simp only [hsem, Bool.false_eq_true, if_false]
  unfold tagsClean.locked DBGet DBSet
  simp only [hget, hset, World.log_db, hdb]
  exact ⟨trivial, _, rfl, hkept _⟩

/-- Witness of C11: "Game" holds U1, who is no member any more, and U2, who is;
after the pass "Game" holds the entry of U2 alone, unchanged. -/
theorem clean_keeps_resolvable_witness :
    exampleTwoUsers.cleanSemaphore = false ∧
      (tagsClean.MsgHandle exampleEnvOnlyU2 {} exampleMsg exampleTwoUsers).2.db =
        some { Platforms :=
          [("Game", { Name := "Game", Role := none, Users := [("U2", exampleTagU2)] })] } ∧
      ((tagsClean.MsgHandle exampleEnvOnlyU2 {} exampleMsg exampleTwoUsers).1 =
          Result.send [Reply.allClean] ∧
        ∃ plats,
          (tagsClean.MsgHandle exampleEnvOnlyU2 {} exampleMsg exampleTwoUsers).2.db =
            some { Platforms := plats } ∧
          plats.map
              (fun e => (e.1, e.2.Name, e.2.Role, e.2.Users.map (fun u => (u.1, u.2.kept)))) =
            (tagsClean.visited
                [("Game", { Name := "Game", Role := none,
                            Users := [("U1", exampleTag), ("U2", exampleTagU2)] })]).map
              (fun e => (e.1, e.2.Name, e.2.Role,
                (tagsClean.survivors exampleEnvOnlyU2 exampleMsg.GuildID e.2.Users).map
                  (fun u => (u.1, u.2.kept))))) :=
  ⟨rfl, by decide,
    clean_keeps_resolvable exampleEnvOnlyU2 {} exampleMsg exampleTwoUsers _ rfl rfl rfl rfl⟩

/-- C12 on the code: U1 has a tag on "A" and on "B", both with the user name
"alice" cached, and the lookup now gives "alicia".  One pass of `tags clean`
refreshes the name on "A", the platform visited first; on "B" the cache of the
pass answers for U1 and line 397 goes on to the next user, so the entry on "B"
is stored with the old name. -/
theorem clean_leaves_stale_name :
    exampleEnvRenamed.memberName exampleMsg.GuildID "U1" = some "alicia" ∧
      (tagsClean.MsgHandle exampleEnvRenamed {} exampleMsg exampleTwoPlatforms).2.db =
        some { Platforms :=
          [("A", { Name := "A", Role := none,
                   Users := [("U1", { exampleTagOn "A" with Username := "alicia" })] }),
           ("B", { Name := "B", Role := none,
                   Users := [("U1", { exampleTagOn "B" with Username := "alice" })] })] } := by
  decide

/-- C13: in one call of `tags clean`, whatever the directory, the input and the
collaborators, the member lookup is made at most once for any user id, and the
number of lookups is at most the number of distinct user ids in the stored
directory.  A lookup is one `State.Member` call with the `GuildMember` call
that may follow it. -/
theorem clean_resolves_once (env : Env) (c : tagsClean) (msg : Message) (w : World) :
    (∀ uid, (resolverCalls (tagsClean.MsgHandle env c msg w).2.trace).count uid ≤
        (resolverCalls w.trace).count uid + 1) ∧
    (resolverCalls (tagsClean.MsgHandle env c msg w).2.trace).length ≤
      (resolverCalls w.trace).length + w.distinctOwners := by
  obtain ⟨calls, h1, h2, h3⟩ := tagsClean_MsgHandle_calls env c msg w
  rw [h1]
  constructor
  · intro uid
    rw [List.count_append]
    have := List.nodup_iff_count_le_one.mp h2 uid
    omega
  · rw [List.length_append]
    have hlen : calls.length ≤ w.distinctOwners := by
      unfold World.distinctOwners
      cases hdb : w.db with
      | none =>
        have : calls = [] := by
          apply List.eq_nil_iff_forall_not_mem.mpr
          intro u hu
          obtain ⟨tgs, ht, _⟩ := h3 u hu
          rw [hdb] at ht
          cases ht
        simp [this]
      | some tgs =>
        simp only []
        apply List.Subperm.length_le
        apply List.subperm_of_subset h2
        intro u hu
        obtain ⟨tgs1, ht, hmem⟩ := h3 u hu
        rw [hdb] at ht
        cases ht
        exact List.mem_dedup.mpr hmem
    omega

/-- C14 on the code: "Game" holds U1, who is no member, and U2, who is, and the
user map is visited in this order.  The slice to sort is `[nil, U2]`; the sort
calls the comparison with `i = 1`, `j = 0`, the element at `i` is not nil, and
line 526 reads `utags[0].Username` through the nil pointer: `tags list` and the
root command `tags Game` panic and produce no table.  The stored directory is
as before. -/
theorem list_panics_on_invalid_first :
    tagsList.rangeUsers exampleEnvOnlyU2 "g1" [("U1", exampleTag), ("U2", exampleTagU2)]
        exampleTwoUsers =
      ([none, some exampleTagU2],
        { exampleTwoUsers with
          trace := [Event.stateMember "g1" "U1", Event.guildMember "g1" "U1",
            Event.stateMember "g1" "U2"] }) ∧
      (tagsList.MsgHandle exampleEnvOnlyU2 { Platform := "Game" } exampleMsg
        exampleTwoUsers).1 = Result.panic ∧
      (tags.MsgHandle exampleEnvOnlyU2 { Platform := "Game" } exampleMsg
        exampleTwoUsers).1 = Result.panic ∧
      (tagsList.MsgHandle exampleEnvOnlyU2 { Platform := "Game" } exampleMsg
        exampleTwoUsers).2.db = exampleTwoUsers.db := by
  decide

/-- C15: the reaction handler sends `true` (Confirmed) exactly on an event on
the prompt by the requester with the affirm emoji, sends `false` (Denied)
exactly on such an event with the deny emoji, and sends nothing exactly when
the event is on another message, by another user, or has any other emoji.  When
that event is the only one and the command receives from its handler call, the
value received is `true` exactly for the affirm event and `false` exactly for
the deny event.  An event the handler sends nothing on changes neither the
state of the wait nor anything that follows in it. -/
theorem listener_filters (warID authorID : String) (no : MessageReaction)
    (acts : List Action) (c : Rendezvous) :
    (reactionHandler warID authorID no = some true ↔
      (no.MessageID = warID ∧ no.UserID = authorID ∧ no.EmojiName = emojiConfirm)) ∧
    (reactionHandler warID authorID no = some false ↔
      (no.MessageID = warID ∧ no.UserID = authorID ∧ no.EmojiName = emojiDeny)) ∧
    (reactionHandler warID authorID no = none ↔
      (no.MessageID ≠ warID ∨ no.UserID ≠ authorID ∨
        (no.EmojiName ≠ emojiConfirm ∧ no.EmojiName ≠ emojiDeny))) ∧
    (Rendezvous.run warID authorID Rendezvous.init [Action.event no, Action.receive 0] =
        some { Rendezvous.init with
          received := some true, invocations := [Invocation.atReacted] } ↔
      (no.MessageID = warID ∧ no.UserID = authorID ∧ no.EmojiName = emojiConfirm)) ∧
    (Rendezvous.run warID authorID Rendezvous.init [Action.event no, Action.receive 0] =
        some { Rendezvous.init with
          received := some false, invocations := [Invocation.atReacted] } ↔
      (no.MessageID = warID ∧ no.UserID = authorID ∧ no.EmojiName = emojiDeny)) ∧
    (reactionHandler warID authorID no = none →
      Rendezvous.run warID authorID c (Action.event no :: acts) =
          Rendezvous.run warID authorID c acts ∧
        c.step warID authorID (Action.event no) = some c) := by
  have hne : emojiConfirm ≠ emojiDeny := by decide
  have hne' : emojiDeny ≠ emojiConfirm := by decide
  have h1 : reactionHandler warID authorID no = some true ↔
      (no.MessageID = warID ∧ no.UserID = authorID ∧ no.EmojiName = emojiConfirm) := by
    unfold reactionHandler
    by_cases hm : no.MessageID = warID <;> by_cases hu : no.UserID = authorID <;>
      by_cases hc : no.EmojiName = emojiConfirm <;>
      by_cases hd : no.EmojiName = emojiDeny <;> simp_all
  have h2 : reactionHandler warID authorID no = some false ↔
      (no.MessageID = warID ∧ no.UserID = authorID ∧ no.EmojiName = emojiDeny) := by
    unfold reactionHandler
    by_cases hm : no.MessageID = warID <;> by_cases hu : no.UserID = authorID <;>
      by_cases hc : no.EmojiName = emojiConfirm <;>
      by_cases hd : no.EmojiName = emojiDeny <;> simp_all
  have h3 : reactionHandler warID authorID no = none ↔
      (no.MessageID ≠ warID ∨ no.UserID ≠ authorID ∨
        (no.EmojiName ≠ emojiConfirm ∧ no.EmojiName ≠ emojiDeny)) := by
    unfold reactionHandler
    by_cases hm : no.MessageID = warID <;> by_cases hu : no.UserID = authorID <;>
      by_cases hc : no.EmojiName = emojiConfirm <;>
      by_cases hd : no.EmojiName = emojiDeny <;> simp_all
  have hstep : reactionHandler warID authorID no = none →
      c.step warID authorID (Action.event no) = some c := by
    intro hr
    unfold Rendezvous.step
    simp only [hr]
    cases c.registered <;> rfl
  refine ⟨h1, h2, h3, ?_, ?_, ?_⟩
  · rw [← h1]
    cases hr : reactionHandler warID authorID no with
    | none => simp [Rendezvous.run, Rendezvous.step, Rendezvous.init, hr]
    | some b => cases b <;> simp [Rendezvous.run, Rendezvous.step, Rendezvous.init, hr]
  · rw [← h2]
    cases hr : reactionHandler warID authorID no with
    | none => simp [Rendezvous.run, Rendezvous.step, Rendezvous.init, hr]
    | some b => cases b <;> simp [Rendezvous.run, Rendezvous.step, Rendezvous.init, hr]
  · intro hr
    refine ⟨?_, hstep hr⟩
    simp only [Rendezvous.run, hstep hr]

/-- Witness of C15: the affirm reaction of another user on the prompt makes the
handler send nothing; the wait then goes on as it does without that event, and
the state of the wait is as before. -/
theorem listener_filters_witness :
    reactionHandler "m1" "U1" exampleForeignReaction = none ∧
      (Rendezvous.run "m1" "U1" Rendezvous.init
            (Action.event exampleForeignReaction ::
              [Action.event (exampleReaction emojiDeny), Action.receive 0]) =
          Rendezvous.run "m1" "U1" Rendezvous.init
            [Action.event (exampleReaction emojiDeny), Action.receive 0] ∧
        Rendezvous.init.step "m1" "U1" (Action.event exampleForeignReaction) =
          some Rendezvous.init) :=
  ⟨by decide,
    (listener_filters "m1" "U1" exampleForeignReaction
      [Action.event (exampleReaction emojiDeny), Action.receive 0]
      Rendezvous.init).2.2.2.2.2 (by decide)⟩

/-! ## The confirmation wait: what stays blocked -/

/-- Once the command has received its value, no step changes that value, and a
handler call waiting to send on `reaction` keeps waiting. -/
theorem Rendezvous_step_received (warID authorID : String) (c c1 : Rendezvous) (a : Action)
    (b : Bool) (hrec : c.received = some b) (hstep : c.step warID authorID a = some c1) :
    c1.received = some b ∧
      ∀ i v, c.invocations.get? i = some (Invocation.atReaction v) →
        c1.invocations.get? i = some (Invocation.atReaction v) := by
  cases a with
  | event no =>
    unfold Rendezvous.step at hstep
    cases hreg : c.registered with
    | false =>
      simp only [hreg, Bool.false_eq_true, if_false, Option.some.injEq] at hstep
      subst hstep
      exact ⟨hrec, fun i v h => h⟩
    | true =>
      simp only [hreg, if_true] at hstep
      cases hh : reactionHandler warID authorID no with
      | none =>
        simp only [hh, Option.some.injEq] at hstep
        subst hstep
        exact ⟨hrec, fun i v h => h⟩
      | some value =>
        simp only [hh, Option.some.injEq] at hstep
        subst hstep
        refine ⟨hrec, ?_⟩
        intro i v h
        have hlt : i < c.invocations.length := by
          rcases List.get?_eq_some.mp h with ⟨hlt, _⟩
          exact hlt
        simp only [List.get?_eq_getElem?] at h ⊢
        rw [List.getElem?_append_left hlt]
        exact h
  | receive i =>
    unfold Rendezvous.step at hstep
    simp [hrec] at hstep
  | timer =>
    unfold Rendezvous.step at hstep
    cases hw : c.waiter <;> simp [hw] at hstep
    subst hstep
    exact ⟨hrec, fun i v h => h⟩
  | receiveTimeout =>
    unfold Rendezvous.step at hstep
    simp [hrec] at hstep
  | reacted j =>
    unfold Rendezvous.step at hstep
    cases hw : c.waiter with
    | atTimeout => simp [hw] at hstep
    | beforeKill => simp [hw] at hstep
    | finished => simp [hw] at hstep
    | selecting =>
      simp only [List.get?_eq_getElem?, hw] at hstep
      cases hj : c.invocations[j]? with
      | none => simp [hj] at hstep
      | some inv =>
        cases inv with
        | atReaction value => simp [hj] at hstep
        | returned => simp [hj] at hstep
        | atReacted =>
          simp only [hj, Option.some.injEq] at hstep
          subst hstep
          refine ⟨hrec, ?_⟩
          intro i v h
          simp only [List.get?_eq_getElem?] at h ⊢
          have hne : j ≠ i := by
            intro heq
            subst heq
            rw [hj] at h
            cases h
          simp only [List.getElem?_set_ne hne]
          exact h
  | kill =>
    unfold Rendezvous.step at hstep
    cases hw : c.waiter <;> simp [hw] at hstep
    subst hstep
    exact ⟨hrec, fun i v h => h⟩

/-- The same over any sequence of steps. -/
theorem Rendezvous_run_received (warID authorID : String) (acts : List Action) :
    ∀ (c c1 : Rendezvous) (b : Bool), c.received = some b →
      Rendezvous.run warID authorID c acts = some c1 →
      c1.received = some b ∧
        ∀ i v, c.invocations.get? i = some (Invocation.atReaction v) →
          c1.invocations.get? i = some (Invocation.atReaction v) := by
  induction acts with
  | nil =>
    intro c c1 b hrec hrun
    simp only [Rendezvous.run, Option.some.injEq] at hrun
    subst hrun
    exact ⟨hrec, fun i v h => h⟩
  | cons a rest ih =>
    intro c c1 b hrec hrun
    simp only [Rendezvous.run] at hrun
    cases hs : c.step warID authorID a with
    | none => simp [hs] at hrun
    | some c2 =>
      simp only [hs] at hrun
      obtain ⟨h1, h2⟩ := Rendezvous_step_received warID authorID c c2 a b hrec hs
      obtain ⟨h3, h4⟩ := ih c2 c1 b h1 hrun
      exact ⟨h3, fun i v h => h4 i v (h2 i v h)⟩

/-- Once the command has received its value while the goroutine stands at the
send of line 293, the goroutine stays there: the handler stays attached and
`kill()` is never called. -/
theorem Rendezvous_step_atTimeout (warID authorID : String) (c c1 : Rendezvous) (a : Action)
    (b : Bool) (hrec : c.received = some b) (hw : c.waiter = Waiter.atTimeout)
    (hstep : c.step warID authorID a = some c1) :
    c1.received = some b ∧ c1.waiter = Waiter.atTimeout ∧
      c1.registered = c.registered ∧ c1.kills = c.kills := by
  cases a with
  | event no =>
    unfold Rendezvous.step at hstep
    cases hreg : c.registered with
    | false =>
      simp only [hreg, Bool.false_eq_true, if_false, Option.some.injEq] at hstep
      subst hstep
      exact ⟨hrec, hw, hreg, rfl⟩
    | true =>
      simp only [hreg, if_true] at hstep
      cases hh : reactionHandler warID authorID no with
      | none =>
        simp only [hh, Option.some.injEq] at hstep
        subst hstep
        exact ⟨hrec, hw, hreg, rfl⟩
      | some value =>
        simp only [hh, Option.some.injEq] at hstep
        subst hstep
        exact ⟨hrec, hw, rfl, rfl⟩
  | receive i =>
    unfold Rendezvous.step at hstep
    simp [hrec] at hstep
  | timer =>
    unfold Rendezvous.step at hstep
    simp [hw] at hstep
  | receiveTimeout =>
    unfold Rendezvous.step at hstep
    simp [hrec] at hstep
  | reacted j =>
    unfold Rendezvous.step at hstep
    simp [hw] at hstep
  | kill =>
    unfold Rendezvous.step at hstep
    simp [hw] at hstep

/-- The same over any sequence of steps. -/
theorem Rendezvous_run_atTimeout (warID authorID : String) (acts : List Action) :
    ∀ (c c1 : Rendezvous) (b : Bool), c.received = some b → c.waiter = Waiter.atTimeout →
      Rendezvous.run warID authorID c acts = some c1 →
      c1.waiter = Waiter.atTimeout ∧ c1.registered = c.registered ∧ c1.kills = c.kills := by
  induction acts with
  | nil =>
    intro c c1 b hrec hw hrun
    simp only [Rendezvous.run, Option.some.injEq] at hrun
    subst hrun
    exact ⟨hw, rfl, rfl⟩
  | cons a rest ih =>
    intro c c1 b hrec hw hrun
    simp only [Rendezvous.run] at hrun
    cases hs : c.step warID authorID a with
    | none => simp [hs] at hrun
    | some c2 =>
      simp only [hs] at hrun
      obtain ⟨h1, h2, h3, h4⟩ := Rendezvous_step_atTimeout warID authorID c c2 a b hrec hw hs
      obtain ⟨h5, h6, h7⟩ := ih c2 c1 b h1 h2 hrun
      exact ⟨h5, h6.trans h3, h7.trans h4⟩

/-- C16 on the code.  (a) The timer fires, the command receives `false`, and an
affirm reaction of the requester is delivered before `kill()`: the handler call
stands at `reaction <- true`, and whatever steps follow it stands there, since
the command receives only once.  (b) The requester affirms, the command
receives `true`, and the timer fires before the handler reaches `reacted <- 0`:
the goroutine stands at `reaction <- false`, and whatever steps follow, the
handler stays attached and `kill()` is not called. -/
theorem confirmation_wait_blocks :
    (Rendezvous.run "m1" "U1" Rendezvous.init exampleLateReaction = some exampleLateBlocked ∧
      ∀ acts c, Rendezvous.run "m1" "U1" exampleLateBlocked acts = some c →
        c.received = some false ∧ c.invocations.get? 0 = some (Invocation.atReaction true)) ∧
    (Rendezvous.run "m1" "U1" Rendezvous.init exampleTimerBetweenSends =
        some exampleNeverKilled ∧
      ∀ acts c, Rendezvous.run "m1" "U1" exampleNeverKilled acts = some c →
        c.waiter = Waiter.atTimeout ∧ c.registered = true ∧ c.kills = 0) := by
  refine ⟨⟨by decide, ?_⟩, ⟨by decide, ?_⟩⟩
  · intro acts c hrun
    obtain ⟨h1, h2⟩ := Rendezvous_run_received "m1" "U1" acts exampleLateBlocked c false rfl hrun
    exact ⟨h1, h2 0 true rfl⟩
  · intro acts c hrun
    exact Rendezvous_run_atTimeout "m1" "U1" acts exampleNeverKilled c true rfl rfl hrun

/-- C17 on the code: of the 24 hours the clock can report, `doClean` calls the
handler at hour 13 and at no other, while the hour at which GMT+11 shows 2am is
hour 15; at hour 13 GMT+11 shows midnight.  Line 965 adds the offset of 11 to
the target hour 2 where the hour in GMT lies 11 before it. -/
theorem doClean_runs_at_thirteen :
    (List.range 24).filter
        (fun h => decide (doClean exampleEnvSilent h exampleGame ≠ exampleGame)) = [13] ∧
      (List.range 24).filter (fun h => decide ((h + 11) % 24 = 2)) = [15] ∧
      (13 + 11) % 24 = 0 ∧
      doClean exampleEnvSilent 15 exampleGame = exampleGame ∧
      doClean exampleEnvSilent 13 exampleGame =
        (tagsClean.MsgHandle exampleEnvSilent {} cleanMessage exampleGame).2 := by
  decide

theorem GoMap_len_set {V : Type} (m : GoMap V) (k : String) (v : V) :
    (m.set k v).len = if (m.get? k).isSome then m.len else m.len + 1 := by
  induction m with
  | nil => simp [GoMap.set, GoMap.get?, GoMap.len]
  | cons e m ih =>
    obtain ⟨k0, v0⟩ := e
    by_cases h0 : k0 = k
    · simp [GoMap.set, GoMap.get?, GoMap.len, h0]
    · simp only [GoMap.set, GoMap.get?, h0, if_false]
      simp only [GoMap.len, List.length_cons] at ih ⊢
      rw [ih]
      split <;> rfl

/-- C18 as stated fails on the code: "Game" is stored with U1 and the edit
`other#42` is valid.  While another `tags add` holds the add semaphore, the
call answers "Please don't add anything while I'm waiting!", does not report
success and stores nothing, since `TryAcquire` (line 221) comes before the
platform is looked up (line 240).  With the semaphore free and `DBSet` failing,
the call hands up the error and the stored entry is as before. -/
theorem add_existing_counterexample :
    (exampleEdit.validate = none ∧
        (tagsAdd.loaded exampleBusy).Platforms.get? exampleEdit.Platform ≠ none ∧
        (tagsAdd.MsgHandle exampleEnvSilent exampleEdit exampleMsg exampleBusy).1 =
          Result.send [Reply.pleaseDontAdd] ∧
        (tagsAdd.MsgHandle exampleEnvSilent exampleEdit exampleMsg exampleBusy).1 ≠
          Result.send [Reply.successAdded "other#42" "Game"] ∧
        (tagsAdd.MsgHandle exampleEnvSilent exampleEdit exampleMsg exampleBusy).2.db =
          exampleBusy.db) ∧
      ((tagsAdd.loaded exampleGame).Platforms.get? exampleEdit.Platform ≠ none ∧
        (tagsAdd.MsgHandle exampleEnvSetFails exampleEdit exampleMsg exampleGame).1 =
          Result.error (Err.collaborator "write failed") ∧
        (tagsAdd.MsgHandle exampleEnvSetFails exampleEdit exampleMsg exampleGame).2.db =
          exampleGame.db) := by
  decide

/-- C18 as amended: the platform is stored already, the input passes the
checks, the semaphore is free and storage works.  Then `tags add` reports
success without any call of the confirmation workflow: its calls are `TryAcquire`, `DBLock`,
`DBGet`, `DBSet`, `DBUnlock`, `Release`.  The stored directory is the old one
with the caller's entry on the platform replaced by, or set to,
`{UID, Username, Tag, Platform, PingMe = true}`: the ping flag is `true`
whatever it was, the user map has one entry more if the caller had none and as
many as before otherwise, and the lookups of every other user on the platform
and of every other platform are as before. -/
theorem add_existing_replaces (env : Env) (t : tagsAdd) (msg : Message) (w : World)
    (tgs : tagStorer) (plt : platform)
    (hv : t.validate = none) (hsem : w.addSemaphore = false)
    (hget : env.dbGetErr = none) (hset : env.dbSetErr = none)
    (hdb : w.db = some tgs) (hplt : tgs.Platforms.get? t.Platform = some plt) :
    tagsAdd.MsgHandle env t msg w =
        (Result.send [Reply.successAdded (String.intercalate " " t.Tag) t.Platform],
          { w with
            db := some (tagsAdd.write t msg tgs plt),
            trace := w.trace ++ [Event.tryAcquireAdd true, Event.dbLock, Event.dbGet,
              Event.dbSet, Event.dbUnlock, Event.releaseAdd] }) ∧
      (∀ q, q ≠ t.Platform →
        (tagsAdd.write t msg tgs plt).Platforms.get? q = tgs.Platforms.get? q) ∧
      ∃ plt1, (tagsAdd.write t msg tgs plt).Platforms.get? t.Platform = some plt1 ∧
        plt1.Name = plt.Name ∧ plt1.Role = plt.Role ∧
        plt1.Users.get? msg.Author.ID =
          some { UID := msg.Author.ID, Username := msg.Author.Username,
                 Tag := String.intercalate " " t.Tag, Platform := t.Platform,
                 PingMe := true } ∧
        (∀ u, u ≠ msg.Author.ID → plt1.Users.get? u = plt.Users.get? u) ∧
        plt1.Users.len =
          if (plt.Users.get? msg.Author.ID).isSome then plt.Users.len
          else plt.Users.len + 1 := by
  refine ⟨?_, fun q hq => GoMap.get?_set_ne _ _ _ _ (Ne.symm hq),
    _, GoMap.get?_set_self _ _ _, rfl, rfl, GoMap.get?_set_self _ _ _,
    fun u hu => GoMap.get?_set_ne _ _ _ _ (Ne.symm hu), GoMap_len_set _ _ _⟩
  unfold tagsAdd.MsgHandle
  simp only [hv, hsem, Bool.false_eq_true, if_false]
  unfold tagsAdd.locked DBGet
  simp only [hget, World.log_db, hdb, hplt]
  unfold tagsAdd.store DBSet
  simp only [hset]
  cases w
  simp_all [World.log]

/-- Witness of C18: U1 has a tag on "Game" with the pings switched off and
edits the tag; the new entry has the new text and the pings switched on, "Game"
still has one user, and no prompt was sent. -/
theorem add_existing_replaces_witness :
    exampleEdit.validate = none ∧
      exampleGameOptedOut.Users.get? "U1" = some { exampleTag with PingMe := false } ∧
      tagsAdd.MsgHandle exampleEnvSilent exampleEdit exampleMsg exampleOptedOut =
        (Result.send [Reply.successAdded "other#42" "Game"],
          { exampleOptedOut with
            db := some { Platforms :=
              [("Game", { Name := "Game", Role := none,
                          Users := [("U1", { exampleTag with Tag := "other#42" })] })] },
            trace := [Event.tryAcquireAdd true, Event.dbLock, Event.dbGet, Event.dbSet,
              Event.dbUnlock, Event.releaseAdd] }) :=
  ⟨by decide, by decide,
    (add_existing_replaces exampleEnvSilent exampleEdit exampleMsg exampleOptedOut
      ⟨[("Game", exampleGameOptedOut)]⟩ exampleGameOptedOut
      (by decide) rfl rfl rfl rfl (by decide)).1.trans (by decide)⟩

end Tags
